import Mathlib

/-!
# DRAMSim2 rank timing model (`Rank.cpp`)

A shallow embedding of `Rank::receiveFromBus`, `Rank::update`, `Rank::powerDown`
and `Rank::powerUp`, and theorems about them.

Modelling conventions.

* `currentClockCycle` and the five per-bank deadlines are cycle counters (their
  declarations are in headers that are not among the sources); they are natural
  numbers here, and adding a delay to the clock is addition of naturals.
* The 32-bit `unsigned` operations that can wrap within a run are modelled with
  their wrap-around: the decrements in `update()` (`dec32`) and the subtraction
  `tRCD-AL` (`sub32`).
* `ERROR(..); exit(..)` ends the process: the call has no successor state and
  returns `Except.error Failure.fatal`.  Indexing `bankStates` or `banks` with
  a bank number that is not below `NUM_BANKS` has no defined behaviour in C++
  and returns `Except.error Failure.outOfRange`.
* `bankStates` and `banks` are built with `NUM_BANKS` entries and never
  resized, so a loop `for (i=0; i<NUM_BANKS; i++)` is a traversal of the list
  `bankStates`.
* The calls `memoryController->receiveFromBus(p)` and `banks[b].write(p)` leave
  the rank; they are recorded in the ghost lists `delivered` and `written`.
-/

namespace DRAMSim

/-- Bank phases, the enum `CurrentBankState` used by `Rank.cpp`. -/
inductive CurrentBankState where
  | Idle
  | RowActive
  | Precharging
  | Refreshing
  | PowerDown
  deriving DecidableEq

/-- Command kinds switched on by `Rank::receiveFromBus`. -/
inductive BusPacketType where
  | READ
  | READ_P
  | WRITE
  | WRITE_P
  | ACTIVATE
  | PRECHARGE
  | REFRESH
  | DATA
  deriving DecidableEq

/-- The fields of a `BusPacket` that `Rank.cpp` reads. -/
structure BusPacket where
  busPacketType : BusPacketType
  column : Nat
  row : Nat
  bank : Nat
  deriving DecidableEq

/-- The fields of a `BankState` that `Rank.cpp` reads and writes. -/
structure BankState where
  currentBankState : CurrentBankState
  openRowAddress : Nat
  nextRead : Nat
  nextWrite : Nat
  nextActivate : Nat
  nextPrecharge : Nat
  nextPowerUp : Nat
  deriving DecidableEq

/-- Modelled from the spec: the timing constants and derived delays named by
`Rank.cpp`; their declarations (`SystemConfiguration.h`) are not among the
sources, the spec describes them as a fixed bundle of named constants. -/
structure Config where
  tRC : Nat
  tRCD : Nat
  AL : Nat
  tRAS : Nat
  tRRD : Nat
  tRP : Nat
  tRFC : Nat
  tCKE : Nat
  tXP : Nat
  tCCD : Nat
  BL : Nat
  RL : Nat
  READ_TO_PRE_DELAY : Nat
  READ_TO_WRITE_DELAY : Nat
  READ_AUTOPRE_DELAY : Nat
  WRITE_TO_PRE_DELAY : Nat
  WRITE_TO_READ_DELAY_B : Nat
  WRITE_AUTOPRE_DELAY : Nat
  deriving DecidableEq

/-- The state of a `Rank` object, with two ghost lists: `delivered` records the
packets passed to `memoryController->receiveFromBus`, `written` the packets
passed to `banks[..].write`. -/
structure Rank where
  id : Int
  incomingWriteBank : Nat
  incomingWriteRow : Nat
  incomingWriteColumn : Nat
  isPowerDown : Bool
  outgoingDataPacket : Option BusPacket
  dataCyclesLeft : Nat
  refreshWaiting : Bool
  readReturnPacket : List BusPacket
  readReturnCountdown : List Nat
  bankStates : List BankState
  currentClockCycle : Nat
  delivered : List BusPacket
  written : List BusPacket
  deriving DecidableEq

/-- Why a call has no successor state. -/
inductive Failure where
  | fatal
  | outOfRange
  deriving DecidableEq

/-- The decrement `x--` of a 32-bit `unsigned`: zero wraps to `2^32 - 1`. -/
def dec32 (x : Nat) : Nat :=
  if x = 0 then 2 ^ 32 - 1 else x - 1

/-- The difference `a-b` of two 32-bit `unsigned` values: it wraps by `2^32`
when `b` exceeds `a`. -/
def sub32 (a b : Nat) : Nat :=
  if b ≤ a then a - b else a + 2 ^ 32 - b

/-- Modelled from the spec: `Bank::read` (`Bank.cpp` is not among the sources)
turns the read command into the response that travels back, re-tagging it as a
data event; under `NO_STORAGE` the source does the re-tagging itself
(`packet->busPacketType = DATA`). -/
def Bank.read (p : BusPacket) : BusPacket :=
  { p with busPacketType := BusPacketType.DATA }

/-- Modelled from the spec: a `BankState` as created with the rank
(`BankState.cpp` is not among the sources): idle, every deadline zero. -/
def BankState.init : BankState :=
  { currentBankState := CurrentBankState.Idle, openRowAddress := 0, nextRead := 0,
    nextWrite := 0, nextActivate := 0, nextPrecharge := 0, nextPowerUp := 0 }

/-- The constructor `Rank::Rank`.  The three `incomingWrite*` members are not
initialised by it, so their values are arguments. -/
def Rank.init (numBanks wb wr wc : Nat) : Rank :=
  { id := -1, incomingWriteBank := wb, incomingWriteRow := wr, incomingWriteColumn := wc,
    isPowerDown := false, outgoingDataPacket := none, dataCyclesLeft := 0,
    refreshWaiting := false, readReturnPacket := [], readReturnCountdown := [],
    bankStates := List.replicate numBanks BankState.init, currentClockCycle := 0,
    delivered := [], written := [] }

/-- The loop of `case READ` and `case READ_P` over all banks. -/
def readLoop (c : Config) (t : Nat) (bs : List BankState) : List BankState :=
  bs.map fun x =>
    { x with nextRead := max x.nextRead (t + max c.tCCD (c.BL / 2)),
             nextWrite := max x.nextWrite (t + c.READ_TO_WRITE_DELAY) }

/-- The loop of `case WRITE` and `case WRITE_P` over all banks. -/
def writeLoop (c : Config) (t : Nat) (bs : List BankState) : List BankState :=
  bs.map fun x =>
    { x with nextRead := max x.nextRead (t + c.WRITE_TO_READ_DELAY_B),
             nextWrite := max x.nextWrite (t + max c.tCCD (c.BL / 2)) }

/-- The loop of `case ACTIVATE`: banks `i, i+1, ..` other than `bank` get
`nextActivate = max(nextActivate, t + tRRD)`. -/
def activateLoop (c : Config) (t bank : Nat) : Nat → List BankState → List BankState
  | _, [] => []
  | i, x :: xs =>
    (if i ≠ bank then { x with nextActivate := max x.nextActivate (t + c.tRRD) } else x)
      :: activateLoop c t bank (i + 1) xs

/-- The loop of `case REFRESH`: the first bank that is not idle ends the
process, an idle bank gets `nextActivate = t + tRFC`. -/
def refreshLoop (c : Config) (t : Nat) : List BankState → Except Failure (List BankState)
  | [] => Except.ok []
  | x :: xs =>
    if x.currentBankState ≠ CurrentBankState.Idle then Except.error Failure.fatal
    else
      match refreshLoop c t xs with
      | Except.error e => Except.error e
      | Except.ok ys => Except.ok ({ x with nextActivate := t + c.tRFC } :: ys)

/-- The function `Rank::receiveFromBus`. -/
def receiveFromBus (c : Config) (s : Rank) (packet : BusPacket) : Except Failure Rank :=
  let t := s.currentClockCycle
  match packet.busPacketType with
  | BusPacketType.READ =>
    match s.bankStates[packet.bank]? with
    | none => Except.error Failure.outOfRange
    | some b =>
      if b.currentBankState ≠ CurrentBankState.RowActive ∨ t < b.nextRead ∨
          packet.row ≠ b.openRowAddress then
        Except.error Failure.fatal
      else
        let bs1 := s.bankStates.set packet.bank
          { b with nextPrecharge := max b.nextPrecharge (t + c.READ_TO_PRE_DELAY) }
        Except.ok { s with
          bankStates := readLoop c t bs1,
          readReturnPacket := s.readReturnPacket ++ [Bank.read packet],
          readReturnCountdown := s.readReturnCountdown ++ [c.RL] }
  | BusPacketType.READ_P =>
    match s.bankStates[packet.bank]? with
    | none => Except.error Failure.outOfRange
    | some b =>
      if b.currentBankState ≠ CurrentBankState.RowActive ∨ t < b.nextRead ∨
          packet.row ≠ b.openRowAddress then
        Except.error Failure.fatal
      else
        let bs1 := s.bankStates.set packet.bank
          { b with currentBankState := CurrentBankState.Idle,
                   nextActivate := max b.nextActivate (t + c.READ_AUTOPRE_DELAY) }
        Except.ok { s with
          bankStates := readLoop c t bs1,
          readReturnPacket := s.readReturnPacket ++ [Bank.read packet],
          readReturnCountdown := s.readReturnCountdown ++ [c.RL] }
  | BusPacketType.WRITE =>
    match s.bankStates[packet.bank]? with
    | none => Except.error Failure.outOfRange
    | some b =>
      if b.currentBankState ≠ CurrentBankState.RowActive ∨ t < b.nextWrite ∨
          packet.row ≠ b.openRowAddress then
        Except.error Failure.fatal
      else
        let bs1 := s.bankStates.set packet.bank
          { b with nextPrecharge := max b.nextPrecharge (t + c.WRITE_TO_PRE_DELAY) }
        Except.ok { s with
          bankStates := writeLoop c t bs1,
          incomingWriteBank := packet.bank,
          incomingWriteRow := packet.row,
          incomingWriteColumn := packet.column }
  | BusPacketType.WRITE_P =>
    match s.bankStates[packet.bank]? with
    | none => Except.error Failure.outOfRange
    | some b =>
      if b.currentBankState ≠ CurrentBankState.RowActive ∨ t < b.nextWrite ∨
          packet.row ≠ b.openRowAddress then
        Except.error Failure.fatal
      else
        let bs1 := s.bankStates.set packet.bank
          { b with currentBankState := CurrentBankState.Idle,
                   nextActivate := max b.nextActivate (t + c.WRITE_AUTOPRE_DELAY) }
        Except.ok { s with
          bankStates := writeLoop c t bs1,
          incomingWriteBank := packet.bank,
          incomingWriteRow := packet.row,
          incomingWriteColumn := packet.column }
  | BusPacketType.ACTIVATE =>
    match s.bankStates[packet.bank]? with
    | none => Except.error Failure.outOfRange
    | some b =>
      if b.currentBankState ≠ CurrentBankState.Idle ∨ t < b.nextActivate then
        Except.error Failure.fatal
      else
        let b1 := { b with currentBankState := CurrentBankState.RowActive,
                           nextActivate := t + c.tRC,
                           openRowAddress := packet.row }
        let b2 :=
          if c.AL > 0 then
            { b1 with nextWrite := t + sub32 c.tRCD c.AL, nextRead := t + sub32 c.tRCD c.AL }
          else
            { b1 with nextWrite := t + sub32 c.tRCD c.AL, nextRead := t + sub32 c.tRCD c.AL }
        let b3 := { b2 with nextPrecharge := t + c.tRAS }
        Except.ok { s with
          bankStates := activateLoop c t packet.bank 0 (s.bankStates.set packet.bank b3) }
  | BusPacketType.PRECHARGE =>
    match s.bankStates[packet.bank]? with
    | none => Except.error Failure.outOfRange
    | some b =>
      if b.currentBankState ≠ CurrentBankState.RowActive ∨ t < b.nextPrecharge then
        Except.error Failure.fatal
      else
        Except.ok { s with
          bankStates := s.bankStates.set packet.bank
            { b with currentBankState := CurrentBankState.Idle,
                     nextActivate := max b.nextActivate (t + c.tRP) } }
  | BusPacketType.REFRESH =>
    match refreshLoop c t s.bankStates with
    | Except.error e => Except.error e
    | Except.ok bs => Except.ok { s with refreshWaiting := false, bankStates := bs }
  | BusPacketType.DATA =>
    if packet.bank < s.bankStates.length then
      Except.ok { s with written := s.written ++ [packet] }
    else
      Except.error Failure.outOfRange

/-- Step 1 of `Rank::update`: the bookkeeping for the packet on the bus. -/
def updateBus (s : Rank) : Rank :=
  match s.outgoingDataPacket with
  | none => s
  | some p =>
    let d := dec32 s.dataCyclesLeft
    if d = 0 then
      { s with dataCyclesLeft := d, delivered := s.delivered ++ [p], outgoingDataPacket := none }
    else
      { s with dataCyclesLeft := d }

/-- The function `Rank::update`.  The test reads the countdown vector only;
`readReturnPacket[0]` of an empty vector has no defined value in C++ and is
`none` here. -/
def update (c : Config) (s : Rank) : Rank :=
  let s1 := updateBus s
  let cd := s1.readReturnCountdown.map dec32
  match cd with
  | 0 :: cds =>
    { s1 with outgoingDataPacket := s1.readReturnPacket.head?, dataCyclesLeft := c.BL / 2,
              readReturnPacket := s1.readReturnPacket.tail, readReturnCountdown := cds }
  | _ => { s1 with readReturnCountdown := cd }

/-- The loop of `Rank::powerDown`. -/
def powerDownLoop (c : Config) (t : Nat) : List BankState → Except Failure (List BankState)
  | [] => Except.ok []
  | x :: xs =>
    if x.currentBankState ≠ CurrentBankState.Idle then Except.error Failure.fatal
    else
      match powerDownLoop c t xs with
      | Except.error e => Except.error e
      | Except.ok ys =>
        Except.ok ({ x with nextPowerUp := t + c.tCKE,
                            currentBankState := CurrentBankState.PowerDown } :: ys)

/-- The function `Rank::powerDown`. -/
def powerDown (c : Config) (s : Rank) : Except Failure Rank :=
  match powerDownLoop c s.currentClockCycle s.bankStates with
  | Except.error e => Except.error e
  | Except.ok bs => Except.ok { s with bankStates := bs, isPowerDown := true }

/-- The loop of `Rank::powerUp`. -/
def powerUpLoop (c : Config) (t : Nat) : List BankState → Except Failure (List BankState)
  | [] => Except.ok []
  | x :: xs =>
    if x.nextPowerUp > t then Except.error Failure.fatal
    else
      match powerUpLoop c t xs with
      | Except.error e => Except.error e
      | Except.ok ys =>
        Except.ok ({ x with nextActivate := t + c.tXP,
                            currentBankState := CurrentBankState.Idle } :: ys)

/-- The function `Rank::powerUp`. -/
def powerUp (c : Config) (s : Rank) : Except Failure Rank :=
  if !s.isPowerDown then Except.error Failure.fatal
  else
    match powerUpLoop c s.currentClockCycle s.bankStates with
    | Except.error e => Except.error e
    | Except.ok bs => Except.ok { s with isPowerDown := false, bankStates := bs }

/-- Modelled from the spec: `SimulatorObject::step` (not among the sources),
the increment of `currentClockCycle` done by the driver after `update()`. -/
def step (s : Rank) : Rank :=
  { s with currentClockCycle := s.currentClockCycle + 1 }

/-- One call made by the driver on a rank. -/
inductive Event where
  | receive (packet : BusPacket)
  | update
  | step
  | powerDown
  | powerUp
  deriving DecidableEq

/-- The effect of one driver call. -/
def exec (c : Config) (s : Rank) : Event → Except Failure Rank
  | Event.receive packet => receiveFromBus c s packet
  | Event.update => Except.ok (update c s)
  | Event.step => Except.ok (step s)
  | Event.powerDown => powerDown c s
  | Event.powerUp => powerUp c s

/-- The effect of a sequence of driver calls; it ends at the first call that
has no successor state. -/
def run (c : Config) (s : Rank) : List Event → Except Failure Rank
  | [] => Except.ok s
  | e :: es =>
    match exec c s e with
    | Except.error f => Except.error f
    | Except.ok s1 => run c s1 es

/-- The number of `update()` calls in a sequence of driver calls. -/
def updates : List Event → Nat
  | [] => 0
  | Event.update :: es => updates es + 1
  | _ :: es => updates es

/-- Whether a driver call is the reception of a READ or READ_P packet. -/
def Event.isRead : Event → Bool
  | Event.receive packet =>
    packet.busPacketType == BusPacketType.READ || packet.busPacketType == BusPacketType.READ_P
  | _ => false

/-- DDR3-like timing constants used by the concrete examples. -/
def exampleConfig : Config :=
  { tRC := 34, tRCD := 10, AL := 0, tRAS := 24, tRRD := 4, tRP := 10, tRFC := 107,
    tCKE := 4, tXP := 4, tCCD := 4, BL := 8, RL := 10,
    READ_TO_PRE_DELAY := 5, READ_TO_WRITE_DELAY := 6, READ_AUTOPRE_DELAY := 15,
    WRITE_TO_PRE_DELAY := 23, WRITE_TO_READ_DELAY_B := 18, WRITE_AUTOPRE_DELAY := 33 }

/-- The claim of non-decreasing deadlines at one call: every deadline of every
bank is at least as large after an accepted call as before it. -/
def DeadlinesNonDecreasing (c : Config) (s : Rank) (packet : BusPacket) : Prop :=
  ∀ s', receiveFromBus c s packet = Except.ok s' →
    ∀ (i : Nat) (b b' : BankState), s.bankStates[i]? = some b → s'.bankStates[i]? = some b' →
      b.nextActivate ≤ b'.nextActivate ∧ b.nextRead ≤ b'.nextRead ∧
      b.nextWrite ≤ b'.nextWrite ∧ b.nextPrecharge ≤ b'.nextPrecharge ∧
      b.nextPowerUp ≤ b'.nextPowerUp

/-- A two-bank rank at cycle 11, reached from the constructed state by
ACTIVATE(bank 0, row 5) at cycle 0 and WRITE(bank 0, row 5) at cycle 10. -/
def stateAfterWrite : Rank :=
  { id := -1, incomingWriteBank := 0, incomingWriteRow := 5, incomingWriteColumn := 3,
    isPowerDown := false, outgoingDataPacket := none, dataCyclesLeft := 0,
    refreshWaiting := false, readReturnPacket := [], readReturnCountdown := [],
    bankStates :=
      [{ currentBankState := CurrentBankState.RowActive, openRowAddress := 5, nextRead := 28,
         nextWrite := 14, nextActivate := 34, nextPrecharge := 33, nextPowerUp := 0 },
       { currentBankState := CurrentBankState.Idle, openRowAddress := 0, nextRead := 28,
         nextWrite := 14, nextActivate := 4, nextPrecharge := 0, nextPowerUp := 0 }],
    currentClockCycle := 11, delivered := [], written := [] }

/-- A one-bank rank at cycle 0 whose idle bank has `nextActivate = 500`. -/
def stateBeforeRefresh : Rank :=
  { Rank.init 1 0 0 0 with
    bankStates := [{ BankState.init with nextActivate := 500 }] }

/-- The two-bank rank after ACTIVATE(bank 0, row 5) at cycle 0 from the
constructed state. -/
def stateAfterActivate : Rank :=
  { Rank.init 2 0 0 0 with
    bankStates :=
      [{ currentBankState := CurrentBankState.RowActive, openRowAddress := 5, nextRead := 10,
         nextWrite := 10, nextActivate := 34, nextPrecharge := 24, nextPowerUp := 0 },
       { currentBankState := CurrentBankState.Idle, openRowAddress := 0, nextRead := 0,
         nextWrite := 0, nextActivate := 4, nextPrecharge := 0, nextPowerUp := 0 }] }

/-- The two-bank rank after READ_P(bank 0, row 5, column 3) at cycle 10, received
in `stateAfterActivate` with the clock at 10. -/
def stateAfterReadP : Rank :=
  { Rank.init 2 0 0 0 with
    bankStates :=
      [{ currentBankState := CurrentBankState.Idle, openRowAddress := 5, nextRead := 14,
         nextWrite := 16, nextActivate := 34, nextPrecharge := 24, nextPowerUp := 0 },
       { currentBankState := CurrentBankState.Idle, openRowAddress := 0, nextRead := 14,
         nextWrite := 16, nextActivate := 4, nextPrecharge := 0, nextPowerUp := 0 }],
    readReturnPacket := [⟨BusPacketType.DATA, 3, 5, 0⟩],
    readReturnCountdown := [10],
    currentClockCycle := 10 }

/-- Timing constants of a posted-CAS configuration (AL = tRCD - 1), used by the
bus contention example. -/
def postedCasConfig : Config :=
  { tRC := 34, tRCD := 10, AL := 9, tRAS := 24, tRRD := 4, tRP := 10, tRFC := 107,
    tCKE := 4, tXP := 4, tCCD := 4, BL := 8, RL := 19,
    READ_TO_PRE_DELAY := 14, READ_TO_WRITE_DELAY := 6, READ_AUTOPRE_DELAY := 24,
    WRITE_TO_PRE_DELAY := 32, WRITE_TO_READ_DELAY_B := 27, WRITE_AUTOPRE_DELAY := 42 }

/-- One simulated cycle: the packets received in it, then `update()`, then the
clock increment. -/
def cycle (packets : List BusPacket) : List Event :=
  packets.map Event.receive ++ [Event.update, Event.step]

/-- A run of `n` cycles in which nothing is received. -/
def idleCycles : Nat → List Event
  | 0 => []
  | n + 1 => cycle [] ++ idleCycles n

/-- A two-bank rank at cycle 24 under `postedCasConfig`: the response of a READ
accepted at cycle 4 has been on the bus for one cycle, the response of a READ
accepted at cycle 6 is due in the next `update()`. -/
def stateBusBusy : Rank :=
  { Rank.init 2 0 0 0 with
    outgoingDataPacket := some ⟨BusPacketType.DATA, 1, 5, 0⟩,
    dataCyclesLeft := 3,
    readReturnPacket := [⟨BusPacketType.DATA, 2, 7, 1⟩],
    readReturnCountdown := [1],
    bankStates :=
      [{ currentBankState := CurrentBankState.RowActive, openRowAddress := 5, nextRead := 10,
         nextWrite := 12, nextActivate := 34, nextPrecharge := 24, nextPowerUp := 0 },
       { currentBankState := CurrentBankState.RowActive, openRowAddress := 7, nextRead := 10,
         nextWrite := 12, nextActivate := 39, nextPrecharge := 29, nextPowerUp := 0 }],
    currentClockCycle := 24 }

/-- The claim of a bus contention wait at one state: when the bus is still
occupied after step 1 and the head countdown reaches zero in this `update()`,
the queue keeps its head and the occupant stays on the bus. -/
def WaitsForBus (c : Config) (s : Rank) : Prop :=
  ∀ occ, s.outgoingDataPacket = some occ → 2 ≤ s.dataCyclesLeft →
    ∀ d ds, s.readReturnCountdown = d :: ds → dec32 d = 0 →
      (update c s).readReturnPacket = s.readReturnPacket ∧
      (update c s).outgoingDataPacket = some occ

/-- Two states agree on the read-return pipeline: bus slot, its counter, both
queues and the record of delivered responses. -/
def SamePipe (s s' : Rank) : Prop :=
  s.outgoingDataPacket = s'.outgoingDataPacket ∧ s.dataCyclesLeft = s'.dataCyclesLeft ∧
  s.readReturnPacket = s'.readReturnPacket ∧ s.readReturnCountdown = s'.readReturnCountdown ∧
  s.delivered = s'.delivered

/-- The state `k` calls of `update()` after a read with response `r` was queued
in `s1` on an empty pipeline: counting down, then on the bus, then delivered. -/
def afterUpdates (c : Config) (s1 : Rank) (r : BusPacket) (k : Nat) : Rank :=
  if k < c.RL then
    { s1 with readReturnCountdown := [c.RL - k] }
  else if k < c.RL + c.BL / 2 then
    { s1 with outgoingDataPacket := some r, dataCyclesLeft := c.BL / 2 - (k - c.RL),
              readReturnPacket := [], readReturnCountdown := [] }
  else
    { s1 with outgoingDataPacket := none, dataCyclesLeft := 0,
              readReturnPacket := [], readReturnCountdown := [],
              delivered := s1.delivered ++ [r] }

/-- The two-bank rank after `powerDown()` at cycle 10, called in
`stateAfterReadP`. -/
def statePoweredDown : Rank :=
  { stateAfterReadP with
    isPowerDown := true,
    bankStates :=
      [{ currentBankState := CurrentBankState.PowerDown, openRowAddress := 5, nextRead := 14,
         nextWrite := 16, nextActivate := 34, nextPrecharge := 24, nextPowerUp := 14 },
       { currentBankState := CurrentBankState.PowerDown, openRowAddress := 0, nextRead := 14,
         nextWrite := 16, nextActivate := 4, nextPrecharge := 0, nextPowerUp := 14 }] }

/-- The response queued by a driver call: the one of the READ or READ_P packet it
hands over, none for any other call. -/
def Event.response (e : Event) : List BusPacket :=
  match e with
  | Event.receive packet => if e.isRead then [Bank.read packet] else []
  | _ => []

/-- The responses of the READ and READ_P packets handed over by a sequence of
calls, in the order of reception. -/
def reads : List Event → List BusPacket
  | [] => []
  | e :: es => e.response ++ reads es

/-- The responses a rank has handed to the memory controller, followed by the
bus occupant (if any), followed by the contents of `readReturnPacket`. -/
def pending (s : Rank) : List BusPacket :=
  s.delivered ++ s.outgoingDataPacket.toList ++ s.readReturnPacket

/-- The clock values at which the READ and READ_P packets of a run were
received, in order; the run stops at the first call without successor state. -/
def readClocks (c : Config) (s : Rank) : List Event → List Nat
  | [] => []
  | e :: es =>
    match exec c s e with
    | Except.error _ => []
    | Except.ok s1 =>
      (if e.isRead then [s.currentClockCycle] else []) ++ readClocks c s1 es

/-- The claim of rank-wide read-to-read spacing for one run: a read received
after another one comes at least max(tCCD, BL/2) cycles later. -/
def ReadSpacing (c : Config) (s : Rank) (es : List Event) : Prop :=
  (readClocks c s es).Pairwise fun t t' => t + max c.tCCD (c.BL / 2) ≤ t'

/-- Every bank's `nextRead` is at least `L`. -/
def ReadFloor (L : Nat) (s : Rank) : Prop :=
  ∀ (i : Nat) (b : BankState), s.bankStates[i]? = some b → L ≤ b.nextRead

/-- The calls of a run under `postedCasConfig` in which two READ packets are
accepted two cycles apart: at cycle 4 on bank 0 and at cycle 6 on bank 1. -/
def closeReadsRun : List Event :=
  cycle [⟨BusPacketType.ACTIVATE, 0, 5, 0⟩] ++ idleCycles 3 ++
    cycle [⟨BusPacketType.READ, 1, 5, 0⟩] ++ cycle [⟨BusPacketType.ACTIVATE, 0, 7, 1⟩] ++
    cycle [⟨BusPacketType.READ, 2, 7, 1⟩]

/-- The rank has at least one bank and every bank is in phase PowerDown. -/
def AllDown (s : Rank) : Prop :=
  s.bankStates ≠ [] ∧ ∀ b ∈ s.bankStates, b.currentBankState = CurrentBankState.PowerDown

/-- Whether a sequence of calls follows the driver's cycle (zero or more
packets, then `update()`, then the clock increment), possibly ending inside a
cycle; `mid` tells that `update()` of the current cycle has already run. -/
def CycleShaped : Bool → List Event → Bool
  | _, [] => true
  | false, Event.receive _ :: es => CycleShaped false es
  | false, Event.update :: es => CycleShaped true es
  | true, Event.step :: es => CycleShaped false es
  | _, _ :: _ => false

/-- The claim of read-return queue well-formedness at one state: both queues
have the same length, every countdown is between 1 and RL, and the countdowns
do not decrease from head to tail. -/
def QueueWellFormed (c : Config) (s : Rank) : Prop :=
  s.readReturnPacket.length = s.readReturnCountdown.length ∧
  (∀ x ∈ s.readReturnCountdown, 1 ≤ x ∧ x ≤ c.RL) ∧
  s.readReturnCountdown.Pairwise (fun a b => a ≤ b)

/-- Invariant of the read-return queue at cycle `τ` (the clock, or the clock
plus one between `update()` and the clock increment) for reads kept `G` cycles
apart: equal lengths, countdowns between 1 and RL and at least `G` apart, and
no bank may be read before the youngest entry is `G` cycles old. -/
def QueueInv (c : Config) (G τ : Nat) (s : Rank) : Prop :=
  s.readReturnPacket.length = s.readReturnCountdown.length ∧
  (∀ x ∈ s.readReturnCountdown, 1 ≤ x ∧ x ≤ c.RL) ∧
  s.readReturnCountdown.Pairwise (fun a b => a + G ≤ b) ∧
  (∀ x ∈ s.readReturnCountdown, ReadFloor (τ + x + G - c.RL) s)

/-- Invariant of the bus slot at cycle `τ`: an occupant has between 1 and BL/2
cycles left, leaves before any queued entry is due, and no bank may be read
so early that the new response would be due before the occupant has left. -/
def BusInv (c : Config) (τ : Nat) (s : Rank) : Prop :=
  ∀ p, s.outgoingDataPacket = some p →
    1 ≤ s.dataCyclesLeft ∧ s.dataCyclesLeft ≤ c.BL / 2 ∧
    (∀ x ∈ s.readReturnCountdown, s.dataCyclesLeft ≤ x) ∧
    ReadFloor (τ + s.dataCyclesLeft - c.RL) s

/-- Timing constants with AL = tRCD, so that a READ may follow its ACTIVATE in
the same cycle. -/
def zeroGapConfig : Config :=
  { tRC := 34, tRCD := 10, AL := 10, tRAS := 24, tRRD := 4, tRP := 10, tRFC := 107,
    tCKE := 4, tXP := 4, tCCD := 4, BL := 8, RL := 20,
    READ_TO_PRE_DELAY := 15, READ_TO_WRITE_DELAY := 6, READ_AUTOPRE_DELAY := 25,
    WRITE_TO_PRE_DELAY := 33, WRITE_TO_READ_DELAY_B := 28, WRITE_AUTOPRE_DELAY := 43 }

/-- The calls of a run under `zeroGapConfig` in which two READ packets are
accepted in the same cycle 4, followed by 19 idle cycles. -/
def sameCycleReadsRun : List Event :=
  cycle [⟨BusPacketType.ACTIVATE, 0, 5, 0⟩] ++ idleCycles 3 ++
    cycle [⟨BusPacketType.READ, 1, 5, 0⟩, ⟨BusPacketType.ACTIVATE, 0, 7, 1⟩,
      ⟨BusPacketType.READ, 2, 7, 1⟩] ++ idleCycles 19

/-- The claim of exactly-once delivery for one run: at its end the responses of
the accepted READ and READ_P packets are, in order, the delivered ones, then
the bus occupant, then the queued ones. -/
def ExactlyOnce (c : Config) (s : Rank) (es : List Event) : Prop :=
  ∀ s', run c s es = Except.ok s' → reads es = pending s'

/-- The calls of `closeReadsRun`, then 17 idle cycles, then the `update()` of
cycle 24. -/
def droppedResponseRun : List Event :=
  closeReadsRun ++ idleCycles 17 ++ [Event.update]

/-- The calls of a run under `exampleConfig` with READ packets accepted at
cycles 10 and 14, followed by 12 idle cycles. -/
def spacedReadsRun : List Event :=
  cycle [⟨BusPacketType.ACTIVATE, 0, 5, 0⟩] ++ idleCycles 9 ++
    cycle [⟨BusPacketType.READ, 3, 5, 0⟩] ++ idleCycles 3 ++
    cycle [⟨BusPacketType.READ, 4, 5, 0⟩] ++ idleCycles 12

/-- The calls of a run under `exampleConfig` with READ packets accepted at
cycles 10 and 14, ending with cycle 14. -/
def queuedReadsRun : List Event :=
  cycle [⟨BusPacketType.ACTIVATE, 0, 5, 0⟩] ++ idleCycles 9 ++
    cycle [⟨BusPacketType.READ, 3, 5, 0⟩] ++ idleCycles 3 ++
    cycle [⟨BusPacketType.READ, 4, 5, 0⟩]

/-! ## Auxiliary lemmas -/

theorem getElem?_activateLoop (c : Config) (t bank : Nat) :
    ∀ (xs : List BankState) (k i : Nat),
      (activateLoop c t bank k xs)[i]? =
        (xs[i]?).map (fun x =>
          if k + i ≠ bank then { x with nextActivate := max x.nextActivate (t + c.tRRD) } else x)
  | [], _, _ => by simp [activateLoop]
  | x :: xs, k, 0 => by simp [activateLoop]
  | x :: xs, k, i + 1 => by
    have h := getElem?_activateLoop c t bank xs (k + 1) i
    have e : k + 1 + i = k + (i + 1) := by omega
    simp only [activateLoop, List.getElem?_cons_succ, h, e]

theorem length_activateLoop (c : Config) (t bank : Nat) :
    ∀ (xs : List BankState) (k : Nat), (activateLoop c t bank k xs).length = xs.length
  | [], _ => by simp [activateLoop]
  | x :: xs, k => by simp [activateLoop, length_activateLoop c t bank xs (k + 1)]

theorem refreshLoop_eq (c : Config) (t : Nat) (xs : List BankState) :
    refreshLoop c t xs =
      if ∀ x ∈ xs, x.currentBankState = CurrentBankState.Idle then
        Except.ok (xs.map fun x => { x with nextActivate := t + c.tRFC })
      else Except.error Failure.fatal := by
  induction xs with
  | nil => simp [refreshLoop]
  | cons x xs ih =>
    simp only [refreshLoop, ih, List.mem_cons, forall_eq_or_imp, List.map_cons]
    by_cases hx : x.currentBankState = CurrentBankState.Idle
    · by_cases hxs : ∀ y ∈ xs, y.currentBankState = CurrentBankState.Idle
      · simp only [hx, ne_eq, not_true_eq_false, if_false, true_and, if_pos hxs]
      · simp only [hx, ne_eq, not_true_eq_false, if_false, true_and, if_neg hxs]
    · simp [hx]

theorem powerDownLoop_eq (c : Config) (t : Nat) (xs : List BankState) :
    powerDownLoop c t xs =
      if ∀ x ∈ xs, x.currentBankState = CurrentBankState.Idle then
        Except.ok (xs.map fun x =>
          { x with nextPowerUp := t + c.tCKE, currentBankState := CurrentBankState.PowerDown })
      else Except.error Failure.fatal := by
  induction xs with
  | nil => simp [powerDownLoop]
  | cons x xs ih =>
    simp only [powerDownLoop, ih, List.mem_cons, forall_eq_or_imp, List.map_cons]
    by_cases hx : x.currentBankState = CurrentBankState.Idle
    · by_cases hxs : ∀ y ∈ xs, y.currentBankState = CurrentBankState.Idle
      · simp only [hx, ne_eq, not_true_eq_false, if_false, true_and, if_pos hxs]
      · simp only [hx, ne_eq, not_true_eq_false, if_false, true_and, if_neg hxs]
    · simp [hx]

theorem powerUpLoop_eq (c : Config) (t : Nat) (xs : List BankState) :
    powerUpLoop c t xs =
      if ∀ x ∈ xs, x.nextPowerUp ≤ t then
        Except.ok (xs.map fun x =>
          { x with nextActivate := t + c.tXP, currentBankState := CurrentBankState.Idle })
      else Except.error Failure.fatal := by
  induction xs with
  | nil => simp [powerUpLoop]
  | cons x xs ih =>
    simp only [powerUpLoop, ih, List.mem_cons, forall_eq_or_imp, List.map_cons]
    by_cases hx : x.nextPowerUp ≤ t
    · by_cases hxs : ∀ y ∈ xs, y.nextPowerUp ≤ t
      · simp only [gt_iff_lt, Nat.not_lt.mpr hx, if_false, hx, true_and, if_pos hxs]
      · simp only [gt_iff_lt, Nat.not_lt.mpr hx, if_false, hx, true_and, if_neg hxs]
    · simp [hx, Nat.lt_of_not_le hx]

theorem updateBus_bankStates (s : Rank) : (updateBus s).bankStates = s.bankStates := by
  unfold updateBus
  split
  · rfl
  · simp only
    split <;> rfl

/-- The call `update()` does not touch the bank vector. -/
theorem update_bankStates (c : Config) (s : Rank) : (update c s).bankStates = s.bankStates := by
  unfold update
  simp only
  split <;> exact updateBus_bankStates s

/-- Between two commands the driver only calls `update()` and advances the
clock: such a run always has a successor state, with the bank vector it started
from. -/
theorem run_ticks_bankStates (c : Config) :
    ∀ (es : List Event) (s : Rank), (∀ e ∈ es, e = Event.update ∨ e = Event.step) →
      ∃ s2, run c s es = Except.ok s2 ∧ s2.bankStates = s.bankStates
  | [], s, _ => ⟨s, rfl, rfl⟩
  | e :: es, s, h => by
    have h' : ∀ e' ∈ es, e' = Event.update ∨ e' = Event.step :=
      fun e' he' => h e' (List.mem_cons_of_mem _ he')
    rcases h e (List.mem_cons_self _ _) with he | he
    · subst he
      obtain ⟨s2, h2, hb⟩ := run_ticks_bankStates c es (update c s) h'
      exact ⟨s2, by simpa only [run, exec] using h2, hb.trans (update_bankStates c s)⟩
    · subst he
      obtain ⟨s2, h2, hb⟩ := run_ticks_bankStates c es (step s) h'
      exact ⟨s2, by simpa only [run, exec] using h2, hb⟩

theorem stateAfterWrite_reached :
    run exampleConfig (Rank.init 2 0 0 0)
      ([Event.receive ⟨BusPacketType.ACTIVATE, 0, 5, 0⟩] ++ List.replicate 10 Event.step ++
        [Event.receive ⟨BusPacketType.WRITE, 3, 5, 0⟩, Event.step]) = Except.ok stateAfterWrite := by
  rfl

/-- C1, counterexample: ACTIVATE on bank 1 at cycle 11 lowers that bank's
`nextRead` from 28 to 21, and REFRESH at cycle 0 lowers `nextActivate` from 500
to 107. -/
theorem C1_counterexample :
    ¬ DeadlinesNonDecreasing exampleConfig stateAfterWrite ⟨BusPacketType.ACTIVATE, 0, 7, 1⟩ ∧
    ¬ DeadlinesNonDecreasing exampleConfig stateBeforeRefresh ⟨BusPacketType.REFRESH, 0, 0, 0⟩ := by
  constructor
  · intro h
    have h1 := (h _ rfl 1 _ _ rfl rfl).2.1
    revert h1
    decide
  · intro h
    have h1 := (h _ rfl 0 _ _ rfl rfl).1
    revert h1
    decide

theorem getElem?_set_bank (bs : List BankState) (k i : Nat) (b x : BankState)
    (hk : bs[k]? = some b) :
    (bs.set k x)[i]? = if i = k then some x else bs[i]? := by
  have hlt : k < bs.length := by
    rcases Nat.lt_or_ge k bs.length with h | h
    · exact h
    · rw [List.getElem?_eq_none h] at hk; cases hk
  by_cases hik : i = k
  · subst hik
    simp [List.getElem?_set_self, hlt]
  · have : k ≠ i := fun e => hik e.symm
    simp [hik, List.getElem?_set_ne this]

/-- C1, amended: an accepted call never lowers a deadline, except that REFRESH
overwrites `nextActivate` of every bank and ACTIVATE overwrites `nextRead`,
`nextWrite` and `nextPrecharge` of the bank it opens. -/
theorem C1_deadlines_non_decreasing (c : Config) (s s' : Rank) (packet : BusPacket)
    (h : receiveFromBus c s packet = Except.ok s') (i : Nat) (b : BankState)
    (hb : s.bankStates[i]? = some b) :
    ∃ b', s'.bankStates[i]? = some b' ∧
      b.nextPowerUp ≤ b'.nextPowerUp ∧
      (packet.busPacketType ≠ BusPacketType.REFRESH → b.nextActivate ≤ b'.nextActivate) ∧
      (¬ (packet.busPacketType = BusPacketType.ACTIVATE ∧ i = packet.bank) →
        b.nextRead ≤ b'.nextRead ∧ b.nextWrite ≤ b'.nextWrite ∧
        b.nextPrecharge ≤ b'.nextPrecharge) := by
  rcases packet with ⟨ty, col, row, bank⟩
  cases ty <;> simp only [receiveFromBus] at h
  case READ =>
    split at h
    · cases h
    · rename_i tb htb
      split at h
      · cases h
      · cases h
        simp only [readLoop, List.getElem?_map, getElem?_set_bank _ _ _ _ _ htb]
        by_cases hi : i = bank
        · subst hi
          rw [hb] at htb; cases htb
          simp
        · simp [hi, hb]
  case READ_P =>
    split at h
    · cases h
    · rename_i tb htb
      split at h
      · cases h
      · cases h
        simp only [readLoop, List.getElem?_map, getElem?_set_bank _ _ _ _ _ htb]
        by_cases hi : i = bank
        · subst hi
          rw [hb] at htb; cases htb
          simp
        · simp [hi, hb]
  case WRITE =>
    split at h
    · cases h
    · rename_i tb htb
      split at h
      · cases h
      · cases h
        simp only [writeLoop, List.getElem?_map, getElem?_set_bank _ _ _ _ _ htb]
        by_cases hi : i = bank
        · subst hi
          rw [hb] at htb; cases htb
          simp
        · simp [hi, hb]
  case WRITE_P =>
    split at h
    · cases h
    · rename_i tb htb
      split at h
      · cases h
      · cases h
        simp only [writeLoop, List.getElem?_map, getElem?_set_bank _ _ _ _ _ htb]
        by_cases hi : i = bank
        · subst hi
          rw [hb] at htb; cases htb
          simp
        · simp [hi, hb]
  case ACTIVATE =>
    split at h
    · cases h
    · rename_i tb htb
      split at h
      · cases h
      · rename_i hg
        cases h
        simp only [getElem?_activateLoop, getElem?_set_bank _ _ _ _ _ htb]
        by_cases hi : i = bank
        · subst hi
          rw [hb] at htb; cases htb
          have hle : b.nextActivate ≤ s.currentClockCycle := by
            by_contra hn
            exact hg (Or.inr (Nat.lt_of_not_le hn))
          by_cases hal : c.AL > 0 <;> simp [hal] <;> omega
        · simp [hi, hb]
  case PRECHARGE =>
    split at h
    · cases h
    · rename_i tb htb
      split at h
      · cases h
      · cases h
        simp only [getElem?_set_bank _ _ _ _ _ htb]
        by_cases hi : i = bank
        · subst hi
          rw [hb] at htb; cases htb
          simp
        · simp [hi, hb]
  case REFRESH =>
    rw [refreshLoop_eq] at h
    split at h
    · cases h
    · rename_i bs hbs
      split at hbs
      · cases hbs
        cases h
        simp [hb]
      · cases hbs
  case DATA =>
    split at h
    · cases h
      exact ⟨b, hb, le_refl _, fun _ => le_refl _, fun _ => ⟨le_refl _, le_refl _, le_refl _⟩⟩
    · cases h

theorem C1_deadlines_non_decreasing_witness :
    ∃ s', receiveFromBus exampleConfig stateAfterWrite ⟨BusPacketType.ACTIVATE, 0, 7, 1⟩
        = Except.ok s' ∧
      ∃ b', s'.bankStates[0]? = some b' ∧
        (0 : Nat) ≤ b'.nextPowerUp ∧ 34 ≤ b'.nextActivate ∧
        28 ≤ b'.nextRead ∧ 14 ≤ b'.nextWrite ∧ 33 ≤ b'.nextPrecharge :=
  ⟨_, rfl,
    match C1_deadlines_non_decreasing exampleConfig stateAfterWrite _
        ⟨BusPacketType.ACTIVATE, 0, 7, 1⟩ rfl 0 _ rfl with
    | ⟨b', h1, h2, h3, h4⟩ => ⟨b', h1, h2, h3 (by decide), h4 (by decide)⟩⟩

theorem sub32_of_le {a b : Nat} (h : b ≤ a) : sub32 a b = a - b := by
  simp [sub32, h]

theorem getElem?_some_lt {bs : List BankState} {k : Nat} {b : BankState}
    (hk : bs[k]? = some b) : k < bs.length := by
  rcases Nat.lt_or_ge k bs.length with h | h
  · exact h
  · rw [List.getElem?_eq_none h] at hk; cases hk

/-- What an accepted ACTIVATE did: the addressed bank was idle with its
`nextActivate` reached, and the new bank vector is the one built by the case. -/
theorem receiveFromBus_ACTIVATE_ok {c : Config} {s s' : Rank} {packet : BusPacket}
    (hty : packet.busPacketType = BusPacketType.ACTIVATE)
    (h : receiveFromBus c s packet = Except.ok s') :
    ∃ b, s.bankStates[packet.bank]? = some b ∧
      b.currentBankState = CurrentBankState.Idle ∧
      b.nextActivate ≤ s.currentClockCycle ∧
      s' = { s with bankStates := (activateLoop c s.currentClockCycle packet.bank 0
              (s.bankStates.set packet.bank
                { currentBankState := CurrentBankState.RowActive,
                  openRowAddress := packet.row,
                  nextRead := s.currentClockCycle + sub32 c.tRCD c.AL,
                  nextWrite := s.currentClockCycle + sub32 c.tRCD c.AL,
                  nextActivate := s.currentClockCycle + c.tRC,
                  nextPrecharge := s.currentClockCycle + c.tRAS,
                  nextPowerUp := b.nextPowerUp })) } := by
  simp only [receiveFromBus, hty] at h
  split at h
  · cases h
  · rename_i b hb
    split at h
    · cases h
    · rename_i hg
      refine ⟨b, hb, ?_, ?_, ?_⟩
      · by_contra hn; exact hg (Or.inl hn)
      · by_contra hn; exact hg (Or.inr (Nat.lt_of_not_le hn))
      · cases h
        by_cases hal : c.AL > 0 <;> simp [hal]

/-- The bank opened by an accepted ACTIVATE, as it stands after the call. -/
theorem receiveFromBus_ACTIVATE_target {c : Config} {s s' : Rank} {packet : BusPacket}
    (hty : packet.busPacketType = BusPacketType.ACTIVATE)
    (h : receiveFromBus c s packet = Except.ok s') :
    ∃ b, s.bankStates[packet.bank]? = some b ∧
      s'.bankStates[packet.bank]? = some
        { currentBankState := CurrentBankState.RowActive,
          openRowAddress := packet.row,
          nextRead := s.currentClockCycle + sub32 c.tRCD c.AL,
          nextWrite := s.currentClockCycle + sub32 c.tRCD c.AL,
          nextActivate := s.currentClockCycle + c.tRC,
          nextPrecharge := s.currentClockCycle + c.tRAS,
          nextPowerUp := b.nextPowerUp } := by
  obtain ⟨b, hb, _, _, hs⟩ := receiveFromBus_ACTIVATE_ok hty h
  refine ⟨b, hb, ?_⟩
  subst hs
  simp [getElem?_activateLoop, getElem?_set_bank _ _ _ _ _ hb]

/-- C2: after an accepted ACTIVATE(b, r) at cycle t with AL ≤ tRCD, in any later
state whose bank vector is still the one the ACTIVATE left, a READ(b, r) is
accepted when the clock is at least t + (tRCD - AL) and ends in the fatal error
when the clock is below it. -/
theorem C2_activate_then_read (c : Config) (s s1 s1' : Rank) (pa pr : BusPacket)
    (hAL : c.AL ≤ c.tRCD)
    (hpa : pa.busPacketType = BusPacketType.ACTIVATE)
    (hpr : pr.busPacketType = BusPacketType.READ)
    (hbank : pr.bank = pa.bank) (hrow : pr.row = pa.row)
    (hact : receiveFromBus c s pa = Except.ok s1)
    (hframe : s1'.bankStates = s1.bankStates) :
    (s.currentClockCycle + (c.tRCD - c.AL) ≤ s1'.currentClockCycle →
      ∃ s2, receiveFromBus c s1' pr = Except.ok s2) ∧
    (s1'.currentClockCycle < s.currentClockCycle + (c.tRCD - c.AL) →
      receiveFromBus c s1' pr = Except.error Failure.fatal) := by
  obtain ⟨b, _, hb'⟩ := receiveFromBus_ACTIVATE_target hpa hact
  rw [← hframe, ← hbank, sub32_of_le hAL] at hb'
  constructor
  · intro hle
    simp only [receiveFromBus, hpr, hb', hrow]
    rw [if_neg]
    · exact ⟨_, rfl⟩
    · simp only [ne_eq, not_true_eq_false, false_or, or_false, not_lt]
      exact hle
  · intro hlt
    simp only [receiveFromBus, hpr, hb', hrow]
    rw [if_pos]
    exact Or.inr (Or.inl hlt)

theorem C2_activate_then_read_witness :
    receiveFromBus exampleConfig (Rank.init 2 0 0 0) ⟨BusPacketType.ACTIVATE, 0, 5, 0⟩
        = Except.ok stateAfterActivate ∧
    (∃ s2, receiveFromBus exampleConfig { stateAfterActivate with currentClockCycle := 10 }
        ⟨BusPacketType.READ, 3, 5, 0⟩ = Except.ok s2) ∧
    receiveFromBus exampleConfig { stateAfterActivate with currentClockCycle := 9 }
        ⟨BusPacketType.READ, 3, 5, 0⟩ = Except.error Failure.fatal :=
  ⟨rfl,
   (C2_activate_then_read exampleConfig (Rank.init 2 0 0 0) stateAfterActivate
      { stateAfterActivate with currentClockCycle := 10 }
      ⟨BusPacketType.ACTIVATE, 0, 5, 0⟩ ⟨BusPacketType.READ, 3, 5, 0⟩
      (by decide) rfl rfl rfl rfl rfl rfl).1 (by decide),
   (C2_activate_then_read exampleConfig (Rank.init 2 0 0 0) stateAfterActivate
      { stateAfterActivate with currentClockCycle := 9 }
      ⟨BusPacketType.ACTIVATE, 0, 5, 0⟩ ⟨BusPacketType.READ, 3, 5, 0⟩
      (by decide) rfl rfl rfl rfl rfl rfl).2 (by decide)⟩

/-- C3: a READ, READ_P, WRITE or WRITE_P packet addressed to a bank that is
RowActive, whose row differs from the bank's open row, ends in the fatal error
whatever the clock and the deadlines are; no successor state is produced. -/
theorem C3_row_mismatch_fatal (c : Config) (s : Rank) (packet : BusPacket) (b : BankState)
    (hty : packet.busPacketType = BusPacketType.READ ∨
           packet.busPacketType = BusPacketType.READ_P ∨
           packet.busPacketType = BusPacketType.WRITE ∨
           packet.busPacketType = BusPacketType.WRITE_P)
    (hb : s.bankStates[packet.bank]? = some b)
    (_hact : b.currentBankState = CurrentBankState.RowActive)
    (hrow : packet.row ≠ b.openRowAddress) :
    receiveFromBus c s packet = Except.error Failure.fatal := by
  rcases hty with h | h | h | h <;>
    simp only [receiveFromBus, h, hb] <;>
    exact if_pos (Or.inr (Or.inr hrow))

theorem C3_row_mismatch_fatal_witness :
    receiveFromBus exampleConfig { stateAfterActivate with currentClockCycle := 50 }
      ⟨BusPacketType.WRITE_P, 3, 6, 0⟩ = Except.error Failure.fatal :=
  C3_row_mismatch_fatal exampleConfig { stateAfterActivate with currentClockCycle := 50 }
    ⟨BusPacketType.WRITE_P, 3, 6, 0⟩
    { currentBankState := CurrentBankState.RowActive, openRowAddress := 5, nextRead := 10,
      nextWrite := 10, nextActivate := 34, nextPrecharge := 24, nextPowerUp := 0 }
    (Or.inr (Or.inr (Or.inr rfl))) rfl rfl (by decide)

theorem stateBusBusy_reached :
    run postedCasConfig (Rank.init 2 0 0 0)
      (cycle [⟨BusPacketType.ACTIVATE, 0, 5, 0⟩] ++ idleCycles 3 ++
        cycle [⟨BusPacketType.READ, 1, 5, 0⟩] ++ cycle [⟨BusPacketType.ACTIVATE, 0, 7, 1⟩] ++
        cycle [⟨BusPacketType.READ, 2, 7, 1⟩] ++ idleCycles 17) = Except.ok stateBusBusy := by
  rfl

/-- C5, counterexample: in `stateBusBusy` the bus holds a response with
`dataCyclesLeft = 3` and the head countdown is 1; `update()` removes the head
from the queue and puts it in the bus slot in place of the occupant. -/
theorem C5_counterexample : ¬ WaitsForBus postedCasConfig stateBusBusy := by
  intro h
  have h1 := (h _ rfl (by decide) 1 [] rfl (by decide)).1
  revert h1
  decide

theorem dec32_eq_zero {d : Nat} (h : dec32 d = 0) : d = 1 := by
  unfold dec32 at h
  split at h
  · omega
  · omega

theorem dec32_succ (n : Nat) : dec32 (n + 1) = n := by
  simp [dec32]

/-- C5, amended: when the bus is still occupied after step 1 and the head
countdown reaches zero in this `update()`, the head is removed from the queue
and installed in the bus slot with `dataCyclesLeft = BL/2` in this same call. -/
theorem C5_head_installed_at_once (c : Config) (s : Rank) (occ p : BusPacket)
    (ps : List BusPacket) (d : Nat) (ds : List Nat)
    (hocc : s.outgoingDataPacket = some occ) (hd : 2 ≤ s.dataCyclesLeft)
    (hq : s.readReturnPacket = p :: ps) (hc : s.readReturnCountdown = d :: ds)
    (hz : dec32 d = 0) :
    (update c s).outgoingDataPacket = some p ∧
    (update c s).dataCyclesLeft = c.BL / 2 ∧
    (update c s).readReturnPacket = ps ∧
    (update c s).readReturnCountdown = ds.map dec32 := by
  have hne : dec32 s.dataCyclesLeft ≠ 0 := by
    unfold dec32
    split <;> omega
  simp [update, updateBus, hocc, hne, hq, hc, hz]

theorem C5_head_installed_at_once_witness :
    (update postedCasConfig stateBusBusy).outgoingDataPacket
        = some ⟨BusPacketType.DATA, 2, 7, 1⟩ ∧
    (update postedCasConfig stateBusBusy).dataCyclesLeft = 8 / 2 ∧
    (update postedCasConfig stateBusBusy).readReturnPacket = [] ∧
    (update postedCasConfig stateBusBusy).readReturnCountdown = [].map dec32 :=
  C5_head_installed_at_once postedCasConfig stateBusBusy ⟨BusPacketType.DATA, 1, 5, 0⟩
    ⟨BusPacketType.DATA, 2, 7, 1⟩ [] 1 [] rfl (by decide) rfl rfl (by decide)

theorem SamePipe.refl (s : Rank) : SamePipe s s :=
  ⟨rfl, rfl, rfl, rfl, rfl⟩

theorem SamePipe.trans {a b d : Rank} (h1 : SamePipe a b) (h2 : SamePipe b d) : SamePipe a d :=
  ⟨h1.1.trans h2.1, h1.2.1.trans h2.2.1, h1.2.2.1.trans h2.2.2.1,
    h1.2.2.2.1.trans h2.2.2.2.1, h1.2.2.2.2.trans h2.2.2.2.2⟩

theorem updateBus_samePipe {s s' : Rank} (h : SamePipe s s') :
    SamePipe (updateBus s) (updateBus s') := by
  obtain ⟨h1, h2, h3, h4, h5⟩ := h
  unfold updateBus
  rw [← h1, ← h2, ← h5]
  cases s.outgoingDataPacket with
  | none => exact ⟨h1, h2, h3, h4, h5⟩
  | some p =>
    simp only
    split
    · exact ⟨rfl, rfl, h3, h4, rfl⟩
    · exact ⟨rfl, rfl, h3, h4, rfl⟩

theorem update_samePipe (c : Config) {s s' : Rank} (h : SamePipe s s') :
    SamePipe (update c s) (update c s') := by
  obtain ⟨h1, h2, h3, h4, h5⟩ := updateBus_samePipe h
  unfold update
  simp only
  rw [← h3, ← h4]
  split
  · exact ⟨rfl, rfl, rfl, rfl, h5⟩
  · exact ⟨h1, h2, rfl, rfl, h5⟩

theorem iterate_update_samePipe (c : Config) (n : Nat) {s s' : Rank} (h : SamePipe s s') :
    SamePipe ((update c)^[n] s) ((update c)^[n] s') := by
  induction n generalizing s s' with
  | zero => exact h
  | succ n ih =>
    simp only [Function.iterate_succ_apply]
    exact ih (update_samePipe c h)

/-- An accepted packet other than READ and READ_P leaves the read-return
pipeline as it was. -/
theorem receiveFromBus_samePipe {c : Config} {s s' : Rank} {packet : BusPacket}
    (h1 : packet.busPacketType ≠ BusPacketType.READ)
    (h2 : packet.busPacketType ≠ BusPacketType.READ_P)
    (h : receiveFromBus c s packet = Except.ok s') : SamePipe s' s := by
  rcases packet with ⟨ty, col, row, bank⟩
  cases ty <;> simp only [receiveFromBus] at h
  case READ => exact absurd rfl h1
  case READ_P => exact absurd rfl h2
  case REFRESH =>
    split at h
    · cases h
    · cases h; exact SamePipe.refl _
  case DATA =>
    split at h
    · cases h; exact SamePipe.refl _
    · cases h
  all_goals
    split at h
    · cases h
    · split at h
      · cases h
      · cases h; exact SamePipe.refl _

theorem powerDown_samePipe {c : Config} {s s' : Rank}
    (h : powerDown c s = Except.ok s') : SamePipe s' s := by
  unfold powerDown at h
  split at h
  · cases h
  · cases h; exact SamePipe.refl _

theorem powerUp_samePipe {c : Config} {s s' : Rank}
    (h : powerUp c s = Except.ok s') : SamePipe s' s := by
  unfold powerUp at h
  split at h
  · cases h
  · split at h
    · cases h
    · cases h; exact SamePipe.refl _

/-- A run without READ and READ_P packets moves the read-return pipeline
exactly as its `update()` calls alone would. -/
theorem run_samePipe (c : Config) :
    ∀ (es : List Event) (s s2 : Rank), (∀ e ∈ es, e.isRead = false) →
      run c s es = Except.ok s2 → SamePipe s2 ((update c)^[updates es] s)
  | [], s, s2, _, h => by
    simp only [run] at h
    cases h
    exact SamePipe.refl _
  | e :: es, s, s2, hnr, h => by
    have hnr' : ∀ e' ∈ es, e'.isRead = false := fun e' he' => hnr e' (List.mem_cons_of_mem _ he')
    have he : e.isRead = false := hnr e (List.mem_cons_self _ _)
    simp only [run] at h
    split at h
    · cases h
    · rename_i s1 hs1
      have ih := run_samePipe c es s1 s2 hnr' h
      cases e with
      | receive packet =>
        simp only [Event.isRead, Bool.or_eq_false_iff, beq_eq_false_iff_ne, ne_eq] at he
        have hp := receiveFromBus_samePipe he.1 he.2 hs1
        simp only [updates]
        exact ih.trans (iterate_update_samePipe c _ hp)
      | update =>
        simp only [exec] at hs1
        cases hs1
        simpa only [updates, Function.iterate_succ_apply] using ih
      | step =>
        simp only [exec] at hs1
        cases hs1
        simp only [updates]
        exact ih.trans (iterate_update_samePipe c _ ⟨rfl, rfl, rfl, rfl, rfl⟩)
      | powerDown =>
        simp only [updates]
        exact ih.trans (iterate_update_samePipe c _ (powerDown_samePipe hs1))
      | powerUp =>
        simp only [updates]
        exact ih.trans (iterate_update_samePipe c _ (powerUp_samePipe hs1))

theorem iterate_update_afterUpdates (c : Config) (s1 : Rank) (r : BusPacket)
    (hRL : 1 ≤ c.RL) (hBL : 1 ≤ c.BL / 2)
    (hbus : s1.outgoingDataPacket = none) (hq : s1.readReturnPacket = [r])
    (hcd : s1.readReturnCountdown = [c.RL]) :
    ∀ k, (update c)^[k] s1 = afterUpdates c s1 r k := by
  intro k
  induction k with
  | zero =>
    have h0 : 0 < c.RL := hRL
    simp only [Function.iterate_zero, id_eq, afterUpdates, h0, if_true, Nat.sub_zero]
    rw [← hcd]
  | succ k ih =>
    rw [Function.iterate_succ_apply', ih]
    unfold afterUpdates
    by_cases h1 : k + 1 < c.RL
    · have h1' : k < c.RL := by omega
      have hd : dec32 (c.RL - k) = c.RL - (k + 1) := by
        unfold dec32; split <;> omega
      have hne : c.RL - (k + 1) ≠ 0 := by omega
      rw [if_pos h1, if_pos h1']
      simp only [update, updateBus, hbus, List.map_cons, List.map_nil, hd]
      split
      · rename_i cds heq
        simp only [List.cons.injEq] at heq
        exact absurd heq.1 hne
      · rfl
    · by_cases h2 : k < c.RL
      · have hk : c.RL - k = 1 := by omega
        have h3 : k + 1 < c.RL + c.BL / 2 := by omega
        have h4 : k + 1 - c.RL = 0 := by omega
        rw [if_neg h1, if_pos h3, if_pos h2]
        simp [update, updateBus, hbus, hk, dec32, hq, h4]
      · rw [if_neg h1, if_neg h2]
        by_cases h3 : k + 1 < c.RL + c.BL / 2
        · have h3' : k < c.RL + c.BL / 2 := by omega
          have hd : dec32 (c.BL / 2 - (k - c.RL)) = c.BL / 2 - (k + 1 - c.RL) := by
            unfold dec32; split <;> omega
          have hne : c.BL / 2 - (k + 1 - c.RL) ≠ 0 := by omega
          rw [if_pos h3, if_pos h3']
          simp [update, updateBus, hd, hne]
        · rw [if_neg h3]
          by_cases h4 : k < c.RL + c.BL / 2
          · have hd : dec32 (c.BL / 2 - (k - c.RL)) = 0 := by
              have : c.BL / 2 - (k - c.RL) = 1 := by omega
              rw [this]; rfl
            rw [if_pos h4]
            simp [update, updateBus, hd]
          · rw [if_neg h4]
            simp [update, updateBus]

/-- What an accepted READ or READ_P does to the read-return pipeline: one entry
(the response, countdown RL) is appended, the rest is untouched. -/
theorem receiveFromBus_read_pipe {c : Config} {s s1 : Rank} {packet : BusPacket}
    (hty : packet.busPacketType = BusPacketType.READ ∨
           packet.busPacketType = BusPacketType.READ_P)
    (h : receiveFromBus c s packet = Except.ok s1) :
    s1.outgoingDataPacket = s.outgoingDataPacket ∧ s1.dataCyclesLeft = s.dataCyclesLeft ∧
    s1.readReturnPacket = s.readReturnPacket ++ [Bank.read packet] ∧
    s1.readReturnCountdown = s.readReturnCountdown ++ [c.RL] ∧
    s1.delivered = s.delivered := by
  rcases hty with hty | hty <;>
  · simp only [receiveFromBus, hty] at h
    split at h
    · cases h
    · split at h
      · cases h
      · cases h
        exact ⟨rfl, rfl, rfl, rfl, rfl⟩

/-- C6: with RL ≥ 1 and BL/2 ≥ 1, let a READ be accepted while the read-return
queue is empty and the bus slot is free, and let any calls follow that receive
no further READ or READ_P.  Before the RL-th `update()` the bus slot is free;
once `update()` has been called exactly RL times the response is on the bus
with `dataCyclesLeft = BL/2`; as long as fewer than RL + BL/2 calls of
`update()` have been made nothing has been handed to the memory controller;
from the (RL + BL/2)-th call on the response has been handed over, once. -/
theorem C6_round_trip_latency (c : Config) (s s1 s2 : Rank) (packet : BusPacket)
    (es : List Event)
    (hRL : 1 ≤ c.RL) (hBL : 1 ≤ c.BL / 2)
    (hty : packet.busPacketType = BusPacketType.READ)
    (hq : s.readReturnPacket = []) (hcd : s.readReturnCountdown = [])
    (hbus : s.outgoingDataPacket = none)
    (hrecv : receiveFromBus c s packet = Except.ok s1)
    (hnr : ∀ e ∈ es, e.isRead = false)
    (hrun : run c s1 es = Except.ok s2) :
    (updates es < c.RL → s2.outgoingDataPacket = none) ∧
    (updates es = c.RL →
      s2.outgoingDataPacket = some (Bank.read packet) ∧ s2.dataCyclesLeft = c.BL / 2) ∧
    (updates es < c.RL + c.BL / 2 → s2.delivered = s.delivered) ∧
    (c.RL + c.BL / 2 ≤ updates es → s2.delivered = s.delivered ++ [Bank.read packet]) := by
  obtain ⟨p1, _, p3, p4, p5⟩ := receiveFromBus_read_pipe (Or.inl hty) hrecv
  rw [hq] at p3
  rw [hcd] at p4
  rw [hbus] at p1
  have hpipe := run_samePipe c es s1 s2 hnr hrun
  rw [iterate_update_afterUpdates c s1 (Bank.read packet) hRL hBL p1 p3 p4] at hpipe
  obtain ⟨q1, q2, _, _, q5⟩ := hpipe
  refine ⟨?_, ?_, ?_, ?_⟩
  · intro hlt
    rw [q1]
    simp only [afterUpdates, if_pos hlt]
    exact p1
  · intro heq
    have h1 : ¬ updates es < c.RL := by omega
    have h2 : updates es < c.RL + c.BL / 2 := by omega
    rw [q1, q2]
    simp only [afterUpdates, if_neg h1, if_pos h2, true_and]
    omega
  · intro hlt
    rw [q5, ← p5]
    by_cases h1 : updates es < c.RL
    · simp only [afterUpdates, if_pos h1]
    · simp only [afterUpdates, if_neg h1, if_pos hlt]
  · intro hle
    have h1 : ¬ updates es < c.RL := by omega
    have h2 : ¬ updates es < c.RL + c.BL / 2 := by omega
    rw [q5, ← p5]
    simp only [afterUpdates, if_neg h1, if_neg h2]

theorem C6_round_trip_latency_witness :
    ∃ s1 s2,
      receiveFromBus exampleConfig { stateAfterActivate with currentClockCycle := 10 }
        ⟨BusPacketType.READ, 3, 5, 0⟩ = Except.ok s1 ∧
      run exampleConfig s1
        (idleCycles 5 ++ cycle [⟨BusPacketType.ACTIVATE, 0, 7, 1⟩] ++ idleCycles 8)
        = Except.ok s2 ∧
      updates (idleCycles 5 ++ cycle [⟨BusPacketType.ACTIVATE, 0, 7, 1⟩] ++ idleCycles 8)
        = 10 + 8 / 2 ∧
      s2.delivered = [] ++ [Bank.read ⟨BusPacketType.READ, 3, 5, 0⟩] :=
  ⟨_, _, rfl, rfl, rfl,
    (C6_round_trip_latency exampleConfig { stateAfterActivate with currentClockCycle := 10 }
      _ _ ⟨BusPacketType.READ, 3, 5, 0⟩
      (idleCycles 5 ++ cycle [⟨BusPacketType.ACTIVATE, 0, 7, 1⟩] ++ idleCycles 8)
      (by decide) (by decide) rfl rfl rfl rfl rfl (by decide) rfl).2.2.2 (by decide)⟩

/-- C7: `powerDown()` ends in the fatal error exactly when some bank is not
Idle; otherwise it succeeds, `isPowerDown` is true, and every bank is PowerDown
with `nextPowerUp = t + tCKE` and its other deadlines and open row unchanged. -/
theorem C7_powerDown (c : Config) (s : Rank) :
    (powerDown c s = Except.error Failure.fatal ↔
      ∃ b ∈ s.bankStates, b.currentBankState ≠ CurrentBankState.Idle) ∧
    ((∀ b ∈ s.bankStates, b.currentBankState = CurrentBankState.Idle) →
      ∃ s', powerDown c s = Except.ok s' ∧ s'.isPowerDown = true ∧
        s'.bankStates.length = s.bankStates.length ∧
        ∀ (i : Nat) (b : BankState), s.bankStates[i]? = some b →
          ∃ b', s'.bankStates[i]? = some b' ∧
            b'.currentBankState = CurrentBankState.PowerDown ∧
            b'.nextPowerUp = s.currentClockCycle + c.tCKE ∧
            b'.nextActivate = b.nextActivate ∧ b'.nextRead = b.nextRead ∧
            b'.nextWrite = b.nextWrite ∧ b'.nextPrecharge = b.nextPrecharge ∧
            b'.openRowAddress = b.openRowAddress) := by
  constructor
  · simp only [powerDown, powerDownLoop_eq]
    by_cases hall : ∀ b ∈ s.bankStates, b.currentBankState = CurrentBankState.Idle
    · rw [if_pos hall]
      constructor
      · intro h; cases h
      · rintro ⟨b, hb, hne⟩
        exact absurd (hall b hb) hne
    · rw [if_neg hall]
      constructor
      · intro _
        by_contra hex
        apply hall
        intro b hb
        by_contra hne
        exact hex ⟨b, hb, hne⟩
      · intro _; rfl
  · intro hall
    simp only [powerDown, powerDownLoop_eq, if_pos hall]
    refine ⟨_, rfl, rfl, by simp, ?_⟩
    intro i b hb
    simp [hb]

theorem C7_powerDown_witness :
    ∃ s', powerDown exampleConfig stateAfterReadP = Except.ok s' ∧ s'.isPowerDown = true ∧
      s'.bankStates.length = 2 ∧
      ∃ b', s'.bankStates[1]? = some b' ∧
        b'.currentBankState = CurrentBankState.PowerDown ∧ b'.nextPowerUp = 10 + 4 ∧
        b'.nextActivate = 4 ∧ b'.nextRead = 14 ∧ b'.nextWrite = 16 ∧
        b'.nextPrecharge = 0 ∧ b'.openRowAddress = 0 :=
  match (C7_powerDown exampleConfig stateAfterReadP).2 (by decide) with
  | ⟨s', h1, h2, h3, h4⟩ => ⟨s', h1, h2, h3, h4 1 _ rfl⟩

theorem powerDown_ok_bankStates {c : Config} {s0 s1 : Rank}
    (h : powerDown c s0 = Except.ok s1) :
    s1.isPowerDown = true ∧
    s1.bankStates = s0.bankStates.map fun x =>
      { x with nextPowerUp := s0.currentClockCycle + c.tCKE,
               currentBankState := CurrentBankState.PowerDown } := by
  simp only [powerDown, powerDownLoop_eq] at h
  split at h
  · cases h
  · rename_i bs hbs
    split at hbs
    · cases hbs
      cases h
      exact ⟨rfl, rfl⟩
    · cases hbs

/-- C8: `powerUp()` at cycle t ends in the fatal error exactly when the rank is
not powered down or some bank has `nextPowerUp > t`; otherwise it succeeds,
`isPowerDown` is false and every bank is Idle with `nextActivate = t + tXP`.
After a successful `powerDown()` at cycle t0 of a rank with at least one bank,
`powerUp()` fails at every cycle below t0 + tCKE and succeeds from t0 + tCKE
on. -/
theorem C8_powerUp (c : Config) (s : Rank) :
    (powerUp c s = Except.error Failure.fatal ↔
      s.isPowerDown = false ∨ ∃ b ∈ s.bankStates, s.currentClockCycle < b.nextPowerUp) ∧
    (s.isPowerDown = true → (∀ b ∈ s.bankStates, b.nextPowerUp ≤ s.currentClockCycle) →
      ∃ s', powerUp c s = Except.ok s' ∧ s'.isPowerDown = false ∧
        s'.bankStates.length = s.bankStates.length ∧
        ∀ b' ∈ s'.bankStates, b'.currentBankState = CurrentBankState.Idle ∧
          b'.nextActivate = s.currentClockCycle + c.tXP) ∧
    (∀ s0 s1 : Rank, powerDown c s0 = Except.ok s1 → s0.bankStates ≠ [] →
      s.bankStates = s1.bankStates → s.isPowerDown = s1.isPowerDown →
      (s.currentClockCycle < s0.currentClockCycle + c.tCKE →
        powerUp c s = Except.error Failure.fatal) ∧
      (s0.currentClockCycle + c.tCKE ≤ s.currentClockCycle →
        ∃ s', powerUp c s = Except.ok s')) := by
  have hiff : powerUp c s = Except.error Failure.fatal ↔
      s.isPowerDown = false ∨ ∃ b ∈ s.bankStates, s.currentClockCycle < b.nextPowerUp := by
    simp only [powerUp, powerUpLoop_eq]
    cases hpd : s.isPowerDown with
    | false => simp
    | true =>
      by_cases hall : ∀ b ∈ s.bankStates, b.nextPowerUp ≤ s.currentClockCycle
      · simp only [Bool.not_true, Bool.false_eq_true, if_false, if_pos hall, Bool.true_eq_false,
          false_or]
        constructor
        · intro h; cases h
        · rintro ⟨b, hb, hlt⟩
          exact absurd (hall b hb) (Nat.not_le.mpr hlt)
      · simp only [Bool.not_true, Bool.false_eq_true, if_false, if_neg hall, Bool.true_eq_false,
          false_or, true_iff]
        by_contra hex
        apply hall
        intro b hb
        by_contra hne
        exact hex ⟨b, hb, Nat.lt_of_not_le hne⟩
  have hok : s.isPowerDown = true → (∀ b ∈ s.bankStates, b.nextPowerUp ≤ s.currentClockCycle) →
      ∃ s', powerUp c s = Except.ok s' ∧ s'.isPowerDown = false ∧
        s'.bankStates.length = s.bankStates.length ∧
        ∀ b' ∈ s'.bankStates, b'.currentBankState = CurrentBankState.Idle ∧
          b'.nextActivate = s.currentClockCycle + c.tXP := by
    intro hpd hall
    simp only [powerUp, powerUpLoop_eq, hpd, Bool.not_true, Bool.false_eq_true, if_false,
      if_pos hall]
    refine ⟨_, rfl, rfl, by simp, ?_⟩
    intro b' hb'
    simp only [List.mem_map] at hb'
    obtain ⟨b, _, rfl⟩ := hb'
    exact ⟨rfl, rfl⟩
  refine ⟨hiff, hok, ?_⟩
  intro s0 s1 hdown hne hbs hpd
  obtain ⟨hpd1, hbs1⟩ := powerDown_ok_bankStates hdown
  rw [hpd1] at hpd
  rw [hbs1] at hbs
  constructor
  · intro hlt
    rw [hiff]
    right
    cases hs0 : s0.bankStates with
    | nil => exact absurd hs0 hne
    | cons x xs =>
      rw [hs0] at hbs
      refine ⟨_, by rw [hbs]; exact List.mem_cons_self _ _, ?_⟩
      exact hlt
  · intro hle
    have hall : ∀ b ∈ s.bankStates, b.nextPowerUp ≤ s.currentClockCycle := by
      intro b hb
      rw [hbs, List.mem_map] at hb
      obtain ⟨x, _, rfl⟩ := hb
      exact hle
    obtain ⟨s', hs', _⟩ := hok hpd hall
    exact ⟨s', hs'⟩

theorem C8_powerUp_witness :
    powerDown exampleConfig stateAfterReadP = Except.ok statePoweredDown ∧
    powerUp exampleConfig { statePoweredDown with currentClockCycle := 13 }
      = Except.error Failure.fatal ∧
    ∃ s', powerUp exampleConfig { statePoweredDown with currentClockCycle := 14 }
      = Except.ok s' :=
  ⟨rfl,
   ((C8_powerUp exampleConfig { statePoweredDown with currentClockCycle := 13 }).2.2
      stateAfterReadP statePoweredDown rfl (by decide) rfl rfl).1 (by decide),
   ((C8_powerUp exampleConfig { statePoweredDown with currentClockCycle := 14 }).2.2
      stateAfterReadP statePoweredDown rfl (by decide) rfl rfl).2 (by decide)⟩

/-- C9: a REFRESH packet received at cycle T ends in the fatal error exactly
when some bank is not Idle, whatever the deadlines are; otherwise it is
accepted, every bank has `nextActivate = T + tRFC`, and every bank's phase,
open row, `nextRead`, `nextWrite`, `nextPrecharge` and `nextPowerUp` are
unchanged. -/
theorem C9_refresh (c : Config) (s : Rank) (packet : BusPacket)
    (hty : packet.busPacketType = BusPacketType.REFRESH) :
    (receiveFromBus c s packet = Except.error Failure.fatal ↔
      ∃ b ∈ s.bankStates, b.currentBankState ≠ CurrentBankState.Idle) ∧
    ((∀ b ∈ s.bankStates, b.currentBankState = CurrentBankState.Idle) →
      ∃ s', receiveFromBus c s packet = Except.ok s' ∧
        s'.bankStates.length = s.bankStates.length ∧
        ∀ (i : Nat) (b : BankState), s.bankStates[i]? = some b →
          ∃ b', s'.bankStates[i]? = some b' ∧
            b'.nextActivate = s.currentClockCycle + c.tRFC ∧
            b'.currentBankState = b.currentBankState ∧
            b'.openRowAddress = b.openRowAddress ∧
            b'.nextRead = b.nextRead ∧ b'.nextWrite = b.nextWrite ∧
            b'.nextPrecharge = b.nextPrecharge ∧ b'.nextPowerUp = b.nextPowerUp) := by
  constructor
  · simp only [receiveFromBus, hty, refreshLoop_eq]
    by_cases hall : ∀ b ∈ s.bankStates, b.currentBankState = CurrentBankState.Idle
    · rw [if_pos hall]
      constructor
      · intro h; cases h
      · rintro ⟨b, hb, hne⟩
        exact absurd (hall b hb) hne
    · rw [if_neg hall]
      constructor
      · intro _
        by_contra hex
        apply hall
        intro b hb
        by_contra hne
        exact hex ⟨b, hb, hne⟩
      · intro _; rfl
  · intro hall
    simp only [receiveFromBus, hty, refreshLoop_eq, if_pos hall]
    refine ⟨_, rfl, by simp, ?_⟩
    intro i b hb
    simp [hb]

theorem C9_refresh_witness :
    ∃ s', receiveFromBus exampleConfig stateAfterReadP ⟨BusPacketType.REFRESH, 0, 0, 0⟩
        = Except.ok s' ∧
      s'.bankStates.map (fun b => b.nextActivate) = [10 + 107, 10 + 107] :=
  match (C9_refresh exampleConfig stateAfterReadP ⟨BusPacketType.REFRESH, 0, 0, 0⟩ rfl).2
      (by decide) with
  | ⟨s', h, _⟩ => ⟨s', h, by cases h; rfl⟩

/-- C10, counterexample: in `stateAfterWrite` the recorded write target is
(bank 0, row 5, column 3); a DATA packet for (bank 1, row 9, column 9) is
accepted and passed to the storage of bank 1. -/
theorem C10_counterexample :
    ((1 : Nat), (9 : Nat), (9 : Nat)) ≠
      (stateAfterWrite.incomingWriteBank, stateAfterWrite.incomingWriteRow,
        stateAfterWrite.incomingWriteColumn) ∧
    receiveFromBus exampleConfig stateAfterWrite ⟨BusPacketType.DATA, 9, 9, 1⟩ =
      Except.ok { stateAfterWrite with written := [⟨BusPacketType.DATA, 9, 9, 1⟩] } ∧
    receiveFromBus exampleConfig stateAfterWrite ⟨BusPacketType.DATA, 9, 9, 1⟩ ≠
      Except.error Failure.fatal := by
  refine ⟨by decide, rfl, ?_⟩
  intro h
  cases h

/-- C10, amended: a DATA packet addressed to an existing bank is accepted
whether or not its bank, row and column are the recorded write target: it is
passed to `banks[bank].write` and nothing else in the rank changes. -/
theorem C10_data_always_accepted (c : Config) (s : Rank) (packet : BusPacket)
    (hty : packet.busPacketType = BusPacketType.DATA)
    (hbank : packet.bank < s.bankStates.length) :
    receiveFromBus c s packet = Except.ok { s with written := s.written ++ [packet] } := by
  simp only [receiveFromBus, hty, if_pos hbank]

theorem C10_data_always_accepted_witness :
    receiveFromBus exampleConfig stateAfterWrite ⟨BusPacketType.DATA, 8, 6, 1⟩ =
      Except.ok { stateAfterWrite with
        written := stateAfterWrite.written ++ [⟨BusPacketType.DATA, 8, 6, 1⟩] } :=
  C10_data_always_accepted exampleConfig stateAfterWrite ⟨BusPacketType.DATA, 8, 6, 1⟩ rfl
    (by decide)

/-- C12: an ACTIVATE(b, row) packet at cycle t ends in the fatal error exactly
when bank b is not Idle or t is below its `nextActivate`; otherwise (with
AL ≤ tRCD) it is accepted, bank b becomes RowActive with the row open,
`nextActivate = t + tRC`, `nextRead = nextWrite = t + (tRCD - AL)`,
`nextPrecharge = t + tRAS`, whether AL is zero or not, and every other bank has
`nextActivate = max(old, t + tRRD)` and its other fields unchanged. -/
theorem C12_activate_transition (c : Config) (s : Rank) (packet : BusPacket) (b : BankState)
    (hty : packet.busPacketType = BusPacketType.ACTIVATE)
    (hb : s.bankStates[packet.bank]? = some b) :
    (receiveFromBus c s packet = Except.error Failure.fatal ↔
      b.currentBankState ≠ CurrentBankState.Idle ∨ s.currentClockCycle < b.nextActivate) ∧
    (b.currentBankState = CurrentBankState.Idle → b.nextActivate ≤ s.currentClockCycle →
      c.AL ≤ c.tRCD →
      ∃ s', receiveFromBus c s packet = Except.ok s' ∧
        s'.bankStates.length = s.bankStates.length ∧
        s'.bankStates[packet.bank]? = some
          { currentBankState := CurrentBankState.RowActive,
            openRowAddress := packet.row,
            nextRead := s.currentClockCycle + (c.tRCD - c.AL),
            nextWrite := s.currentClockCycle + (c.tRCD - c.AL),
            nextActivate := s.currentClockCycle + c.tRC,
            nextPrecharge := s.currentClockCycle + c.tRAS,
            nextPowerUp := b.nextPowerUp } ∧
        ∀ (i : Nat) (x : BankState), i ≠ packet.bank → s.bankStates[i]? = some x →
          s'.bankStates[i]? = some
            { x with nextActivate := max x.nextActivate (s.currentClockCycle + c.tRRD) }) := by
  constructor
  · simp only [receiveFromBus, hty, hb]
    split
    · rename_i hg
      exact ⟨fun _ => hg, fun _ => rfl⟩
    · rename_i hg
      constructor
      · intro h; cases h
      · intro h; exact absurd h hg
  · intro hidle hle hAL
    have hg : ¬ (b.currentBankState ≠ CurrentBankState.Idle ∨
        s.currentClockCycle < b.nextActivate) := by
      rintro (h | h)
      · exact h hidle
      · omega
    simp only [receiveFromBus, hty, hb, if_neg hg]
    refine ⟨_, rfl, ?_, ?_, ?_⟩
    · simp [length_activateLoop]
    · by_cases hal : c.AL > 0 <;>
        simp [hal, getElem?_activateLoop, getElem?_set_bank _ _ _ _ _ hb, sub32_of_le hAL]
    · intro i x hi hx
      by_cases hal : c.AL > 0 <;>
        simp [hal, getElem?_activateLoop, getElem?_set_bank _ _ _ _ _ hb, hi, hx]


theorem C12_activate_transition_witness :
    ∃ s', receiveFromBus exampleConfig stateAfterWrite ⟨BusPacketType.ACTIVATE, 0, 7, 1⟩
        = Except.ok s' ∧
      s'.bankStates.length = 2 ∧
      s'.bankStates[1]? = some
        { currentBankState := CurrentBankState.RowActive, openRowAddress := 7,
          nextRead := 11 + (10 - 0), nextWrite := 11 + (10 - 0), nextActivate := 11 + 34,
          nextPrecharge := 11 + 24, nextPowerUp := 0 } ∧
      s'.bankStates[0]? = some
        { currentBankState := CurrentBankState.RowActive, openRowAddress := 5, nextRead := 28,
          nextWrite := 14, nextActivate := max 34 (11 + 4), nextPrecharge := 33,
          nextPowerUp := 0 } :=
  match (C12_activate_transition exampleConfig stateAfterWrite
      ⟨BusPacketType.ACTIVATE, 0, 7, 1⟩ _ rfl rfl).2 rfl (by decide) (by decide) with
  | ⟨s', h1, h2, h3, h4⟩ => ⟨s', h1, h2, h3, h4 0 _ (by decide) rfl⟩

/-- C13: a READ(b, row) packet accepted at cycle t raises bank b's
`nextPrecharge` to max(old, t + READ_TO_PRE_DELAY), raises for every bank
`nextRead` to max(old, t + max(tCCD, BL/2)) and `nextWrite` to
max(old, t + READ_TO_WRITE_DELAY), leaves every bank's phase, open row,
`nextActivate` and `nextPowerUp` unchanged, and appends one entry (the packet
as response, countdown RL) at the tail of the read-return queue; the entries
already queued and the bus slot are unchanged. -/
theorem C13_read_transition (c : Config) (s s' : Rank) (packet : BusPacket)
    (hty : packet.busPacketType = BusPacketType.READ)
    (h : receiveFromBus c s packet = Except.ok s') :
    s'.bankStates.length = s.bankStates.length ∧
    (∀ (i : Nat) (x : BankState), s.bankStates[i]? = some x →
      ∃ x', s'.bankStates[i]? = some x' ∧
        x'.nextRead = max x.nextRead (s.currentClockCycle + max c.tCCD (c.BL / 2)) ∧
        x'.nextWrite = max x.nextWrite (s.currentClockCycle + c.READ_TO_WRITE_DELAY) ∧
        x'.nextPrecharge =
          (if i = packet.bank then
            max x.nextPrecharge (s.currentClockCycle + c.READ_TO_PRE_DELAY)
           else x.nextPrecharge) ∧
        x'.currentBankState = x.currentBankState ∧
        x'.openRowAddress = x.openRowAddress ∧
        x'.nextActivate = x.nextActivate ∧ x'.nextPowerUp = x.nextPowerUp) ∧
    s'.readReturnPacket = s.readReturnPacket ++ [Bank.read packet] ∧
    s'.readReturnCountdown = s.readReturnCountdown ++ [c.RL] ∧
    s'.outgoingDataPacket = s.outgoingDataPacket ∧
    s'.dataCyclesLeft = s.dataCyclesLeft := by
  simp only [receiveFromBus, hty] at h
  split at h
  · cases h
  · rename_i b hb
    split at h
    · cases h
    · cases h
      refine ⟨by simp [readLoop], ?_, rfl, rfl, rfl, rfl⟩
      intro i x hx
      simp only [readLoop, List.getElem?_map, getElem?_set_bank _ _ _ _ _ hb]
      by_cases hi : i = packet.bank
      · subst hi
        rw [hx] at hb; cases hb
        simp
      · simp [hi, hx]

theorem C13_read_transition_witness :
    ∃ s', receiveFromBus exampleConfig { stateAfterActivate with currentClockCycle := 10 }
        ⟨BusPacketType.READ, 3, 5, 0⟩ = Except.ok s' ∧
      s'.bankStates.length = 2 ∧
      s'.readReturnPacket = [] ++ [Bank.read ⟨BusPacketType.READ, 3, 5, 0⟩] ∧
      s'.readReturnCountdown = [] ++ [10] ∧
      s'.outgoingDataPacket = none ∧ s'.dataCyclesLeft = 0 :=
  ⟨_, rfl,
    match C13_read_transition exampleConfig { stateAfterActivate with currentClockCycle := 10 }
        _ ⟨BusPacketType.READ, 3, 5, 0⟩ rfl rfl with
    | ⟨h1, _, h3, h4, h5, h6⟩ => ⟨h1, h3, h4, h5, h6⟩⟩

/-- C14: a WRITE(b, row, col) packet at cycle t ends in the fatal error exactly
when bank b is not RowActive, or t is below its `nextWrite`, or the row is not
the open row; otherwise it is accepted, bank b's `nextPrecharge` becomes
max(old, t + WRITE_TO_PRE_DELAY), every bank's `nextRead` becomes
max(old, t + WRITE_TO_READ_DELAY_B) and `nextWrite` max(old, t + max(tCCD, BL/2)),
the write target (b, row, col) is recorded, and bank phases, the read-return
queue and the bus slot are unchanged. -/
theorem C14_write_transition (c : Config) (s : Rank) (packet : BusPacket) (b : BankState)
    (hty : packet.busPacketType = BusPacketType.WRITE)
    (hb : s.bankStates[packet.bank]? = some b) :
    (receiveFromBus c s packet = Except.error Failure.fatal ↔
      b.currentBankState ≠ CurrentBankState.RowActive ∨ s.currentClockCycle < b.nextWrite ∨
        packet.row ≠ b.openRowAddress) ∧
    (¬ (b.currentBankState ≠ CurrentBankState.RowActive ∨ s.currentClockCycle < b.nextWrite ∨
        packet.row ≠ b.openRowAddress) →
      ∃ s', receiveFromBus c s packet = Except.ok s' ∧
        s'.bankStates.length = s.bankStates.length ∧
        (∀ (i : Nat) (x : BankState), s.bankStates[i]? = some x →
          ∃ x', s'.bankStates[i]? = some x' ∧
            x'.nextRead = max x.nextRead (s.currentClockCycle + c.WRITE_TO_READ_DELAY_B) ∧
            x'.nextWrite = max x.nextWrite (s.currentClockCycle + max c.tCCD (c.BL / 2)) ∧
            x'.nextPrecharge =
              (if i = packet.bank then
                max x.nextPrecharge (s.currentClockCycle + c.WRITE_TO_PRE_DELAY)
               else x.nextPrecharge) ∧
            x'.currentBankState = x.currentBankState ∧
            x'.openRowAddress = x.openRowAddress ∧
            x'.nextActivate = x.nextActivate ∧ x'.nextPowerUp = x.nextPowerUp) ∧
        s'.incomingWriteBank = packet.bank ∧ s'.incomingWriteRow = packet.row ∧
        s'.incomingWriteColumn = packet.column ∧
        s'.readReturnPacket = s.readReturnPacket ∧
        s'.readReturnCountdown = s.readReturnCountdown ∧
        s'.outgoingDataPacket = s.outgoingDataPacket ∧
        s'.dataCyclesLeft = s.dataCyclesLeft) := by
  constructor
  · simp only [receiveFromBus, hty, hb]
    split
    · rename_i hg
      exact ⟨fun _ => hg, fun _ => rfl⟩
    · rename_i hg
      constructor
      · intro h; cases h
      · intro h; exact absurd h hg
  · intro hg
    simp only [receiveFromBus, hty, hb, if_neg hg]
    refine ⟨_, rfl, by simp [writeLoop], ?_, rfl, rfl, rfl, rfl, rfl, rfl, rfl⟩
    intro i x hx
    simp only [writeLoop, List.getElem?_map, getElem?_set_bank _ _ _ _ _ hb]
    by_cases hi : i = packet.bank
    · subst hi
      rw [hx] at hb; cases hb
      simp
    · simp [hi, hx]

theorem C14_write_transition_witness :
    ∃ s', receiveFromBus exampleConfig { stateAfterActivate with currentClockCycle := 10 }
        ⟨BusPacketType.WRITE, 3, 5, 0⟩ = Except.ok s' ∧
      s'.bankStates.length = 2 ∧
      s'.incomingWriteBank = 0 ∧ s'.incomingWriteRow = 5 ∧ s'.incomingWriteColumn = 3 ∧
      s'.readReturnPacket = [] ∧ s'.readReturnCountdown = [] ∧
      s'.outgoingDataPacket = none ∧ s'.dataCyclesLeft = 0 :=
  match (C14_write_transition exampleConfig { stateAfterActivate with currentClockCycle := 10 }
      ⟨BusPacketType.WRITE, 3, 5, 0⟩ _ rfl rfl).2 (by decide) with
  | ⟨s', h0, h1, _, h3, h4, h5, h6, h7, h8, h9⟩ => ⟨s', h0, h1, h3, h4, h5, h6, h7, h8, h9⟩

/-- C15: a PRECHARGE(b) packet at cycle t ends in the fatal error exactly when
bank b is not RowActive or t is below its `nextPrecharge`; otherwise it is
accepted, bank b becomes Idle with `nextActivate = max(old, t + tRP)`, its
other fields are unchanged, and every other bank is unchanged. -/
theorem C15_precharge_transition (c : Config) (s : Rank) (packet : BusPacket) (b : BankState)
    (hty : packet.busPacketType = BusPacketType.PRECHARGE)
    (hb : s.bankStates[packet.bank]? = some b) :
    (receiveFromBus c s packet = Except.error Failure.fatal ↔
      b.currentBankState ≠ CurrentBankState.RowActive ∨
        s.currentClockCycle < b.nextPrecharge) ∧
    (b.currentBankState = CurrentBankState.RowActive →
      b.nextPrecharge ≤ s.currentClockCycle →
      ∃ s', receiveFromBus c s packet = Except.ok s' ∧
        s'.bankStates.length = s.bankStates.length ∧
        s'.bankStates[packet.bank]? = some
          { currentBankState := CurrentBankState.Idle,
            openRowAddress := b.openRowAddress,
            nextRead := b.nextRead, nextWrite := b.nextWrite,
            nextActivate := max b.nextActivate (s.currentClockCycle + c.tRP),
            nextPrecharge := b.nextPrecharge, nextPowerUp := b.nextPowerUp } ∧
        ∀ (i : Nat), i ≠ packet.bank → s'.bankStates[i]? = s.bankStates[i]?) := by
  constructor
  · simp only [receiveFromBus, hty, hb]
    split
    · rename_i hg
      exact ⟨fun _ => hg, fun _ => rfl⟩
    · rename_i hg
      constructor
      · intro h; cases h
      · intro h; exact absurd h hg
  · intro hact hle
    have hg : ¬ (b.currentBankState ≠ CurrentBankState.RowActive ∨
        s.currentClockCycle < b.nextPrecharge) := by
      rintro (h | h)
      · exact h hact
      · omega
    simp only [receiveFromBus, hty, hb, if_neg hg]
    refine ⟨_, rfl, by simp, ?_, ?_⟩
    · simp [getElem?_set_bank _ _ _ _ _ hb]
    · intro i hi
      simp [getElem?_set_bank _ _ _ _ _ hb, hi]

theorem C15_precharge_transition_witness :
    ∃ s', receiveFromBus exampleConfig { stateAfterActivate with currentClockCycle := 24 }
        ⟨BusPacketType.PRECHARGE, 0, 0, 0⟩ = Except.ok s' ∧
      s'.bankStates.length = 2 ∧
      s'.bankStates[0]? = some
        { currentBankState := CurrentBankState.Idle, openRowAddress := 5,
          nextRead := 10, nextWrite := 10, nextActivate := max 34 (24 + 10),
          nextPrecharge := 24, nextPowerUp := 0 } ∧
      s'.bankStates[1]? = stateAfterActivate.bankStates[1]? :=
  match (C15_precharge_transition exampleConfig
      { stateAfterActivate with currentClockCycle := 24 }
      ⟨BusPacketType.PRECHARGE, 0, 0, 0⟩ _ rfl rfl).2 rfl (by decide) with
  | ⟨s', h0, h1, h2, h3⟩ => ⟨s', h0, h1, h2, h3 1 (by decide)⟩

theorem updateBus_frame (s : Rank) :
    (updateBus s).bankStates = s.bankStates ∧ (updateBus s).isPowerDown = s.isPowerDown ∧
    (updateBus s).incomingWriteBank = s.incomingWriteBank ∧
    (updateBus s).incomingWriteRow = s.incomingWriteRow ∧
    (updateBus s).incomingWriteColumn = s.incomingWriteColumn ∧
    (updateBus s).currentClockCycle = s.currentClockCycle := by
  unfold updateBus
  split
  · exact ⟨rfl, rfl, rfl, rfl, rfl, rfl⟩
  · simp only
    split <;> exact ⟨rfl, rfl, rfl, rfl, rfl, rfl⟩

/-- The call `update()` touches only the bus slot, its counter, the queues and
the record of delivered responses. -/
theorem update_frame (c : Config) (s : Rank) :
    (update c s).bankStates = s.bankStates ∧ (update c s).isPowerDown = s.isPowerDown ∧
    (update c s).incomingWriteBank = s.incomingWriteBank ∧
    (update c s).incomingWriteRow = s.incomingWriteRow ∧
    (update c s).incomingWriteColumn = s.incomingWriteColumn ∧
    (update c s).currentClockCycle = s.currentClockCycle := by
  unfold update
  simp only
  split <;> exact updateBus_frame s

/-- An accepted packet leaves the clock, the bus slot and its counter as they
were, and keeps the queued entries, adding at most one at the tail. -/
theorem receiveFromBus_frame {c : Config} {s s' : Rank} {packet : BusPacket}
    (h : receiveFromBus c s packet = Except.ok s') :
    s'.currentClockCycle = s.currentClockCycle ∧
    s'.outgoingDataPacket = s.outgoingDataPacket ∧
    s'.dataCyclesLeft = s.dataCyclesLeft ∧
    s'.delivered = s.delivered ∧
    (∃ tl, s'.readReturnCountdown = s.readReturnCountdown ++ tl) ∧
    (∃ tl, s'.readReturnPacket = s.readReturnPacket ++ tl) := by
  rcases packet with ⟨ty, col, row, bank⟩
  cases ty <;> simp only [receiveFromBus] at h
  case REFRESH =>
    split at h
    · cases h
    · cases h; exact ⟨rfl, rfl, rfl, rfl, ⟨[], by simp⟩, ⟨[], by simp⟩⟩
  case DATA =>
    split at h
    · cases h; exact ⟨rfl, rfl, rfl, rfl, ⟨[], by simp⟩, ⟨[], by simp⟩⟩
    · cases h
  case READ =>
    split at h
    · cases h
    · split at h
      · cases h
      · cases h; exact ⟨rfl, rfl, rfl, rfl, ⟨_, rfl⟩, ⟨_, rfl⟩⟩
  case READ_P =>
    split at h
    · cases h
    · split at h
      · cases h
      · cases h; exact ⟨rfl, rfl, rfl, rfl, ⟨_, rfl⟩, ⟨_, rfl⟩⟩
  all_goals
    split at h
    · cases h
    · split at h
      · cases h
      · cases h; exact ⟨rfl, rfl, rfl, rfl, ⟨[], by simp⟩, ⟨[], by simp⟩⟩

/-- C16: `update()` leaves every bank's phase, open row and five deadlines,
`isPowerDown` and the recorded write target unchanged; an accepted
`receiveFromBus` call leaves `currentClockCycle`, `outgoingDataPacket`,
`dataCyclesLeft` and the countdown of every entry already queued unchanged. -/
theorem C16_receive_update_separation (c : Config) (s : Rank) :
    ((update c s).bankStates = s.bankStates ∧ (update c s).isPowerDown = s.isPowerDown ∧
      (update c s).incomingWriteBank = s.incomingWriteBank ∧
      (update c s).incomingWriteRow = s.incomingWriteRow ∧
      (update c s).incomingWriteColumn = s.incomingWriteColumn) ∧
    ∀ (packet : BusPacket) (s' : Rank), receiveFromBus c s packet = Except.ok s' →
      s'.currentClockCycle = s.currentClockCycle ∧
      s'.outgoingDataPacket = s.outgoingDataPacket ∧
      s'.dataCyclesLeft = s.dataCyclesLeft ∧
      ∀ (i : Nat) (x : Nat), s.readReturnCountdown[i]? = some x →
        s'.readReturnCountdown[i]? = some x := by
  obtain ⟨u1, u2, u3, u4, u5, _⟩ := update_frame c s
  refine ⟨⟨u1, u2, u3, u4, u5⟩, ?_⟩
  intro packet s' h
  obtain ⟨r1, r2, r3, _, ⟨tl, r5⟩, _⟩ := receiveFromBus_frame h
  refine ⟨r1, r2, r3, ?_⟩
  intro i x hx
  have hlt : i < s.readReturnCountdown.length := by
    rcases Nat.lt_or_ge i s.readReturnCountdown.length with hl | hl
    · exact hl
    · rw [List.getElem?_eq_none hl] at hx; cases hx
  rw [r5, List.getElem?_append_left hlt]
  exact hx

theorem C16_receive_update_separation_witness :
    ∃ s', receiveFromBus postedCasConfig stateBusBusy ⟨BusPacketType.PRECHARGE, 0, 0, 0⟩
        = Except.ok s' ∧
      s'.currentClockCycle = 24 ∧
      s'.outgoingDataPacket = some ⟨BusPacketType.DATA, 1, 5, 0⟩ ∧
      s'.dataCyclesLeft = 3 ∧ s'.readReturnCountdown[0]? = some 1 :=
  ⟨_, rfl,
    match (C16_receive_update_separation postedCasConfig stateBusBusy).2
        ⟨BusPacketType.PRECHARGE, 0, 0, 0⟩ _ rfl with
    | ⟨h1, h2, h3, h4⟩ => ⟨h1, h2, h3, h4 0 1 rfl⟩⟩

theorem pending_of_samePipe {s s' : Rank} (h : SamePipe s s') : pending s = pending s' := by
  obtain ⟨h1, _, h3, _, h5⟩ := h
  simp only [pending, h1, h3, h5]

theorem pending_updateBus (s : Rank) : pending (updateBus s) = pending s := by
  unfold updateBus pending
  cases h : s.outgoingDataPacket with
  | none => simp [h]
  | some p =>
    simp only
    split <;> simp [h]

/-- A call of `update()` keeps the order of the responses in flight; it can
only lose the bus occupant. -/
theorem pending_update_sublist (c : Config) (s : Rank) :
    List.Sublist (pending (update c s)) (pending s) := by
  rw [← pending_updateBus s]
  unfold update
  simp only
  split
  · simp only [pending]
    have hq : (updateBus s).readReturnPacket.head?.toList ++ (updateBus s).readReturnPacket.tail
        = (updateBus s).readReturnPacket := by
      cases (updateBus s).readReturnPacket <;> simp
    rw [List.append_assoc, List.append_assoc, hq]
    apply List.Sublist.append_left
    exact List.sublist_append_right _ _
  · exact List.Sublist.refl _

theorem exec_pending {c : Config} {s s' : Rank} {e : Event}
    (h : exec c s e = Except.ok s') :
    List.Sublist (pending s') (pending s ++ e.response) := by
  cases e with
  | receive packet =>
    by_cases hr : (Event.receive packet).isRead = true
    · have hty : packet.busPacketType = BusPacketType.READ ∨
          packet.busPacketType = BusPacketType.READ_P := by
        simpa [Event.isRead] using hr
      obtain ⟨p1, _, p3, _, p5⟩ := receiveFromBus_read_pipe hty h
      simp only [Event.response, hr, if_true, pending, p1, p3, p5, List.append_assoc]
      exact List.Sublist.refl _
    · have hr' : (Event.receive packet).isRead = false := by
        cases hh : (Event.receive packet).isRead
        · rfl
        · exact absurd hh hr
      have hne : packet.busPacketType ≠ BusPacketType.READ ∧
          packet.busPacketType ≠ BusPacketType.READ_P := by
        simpa [Event.isRead] using hr'
      have hp := receiveFromBus_samePipe hne.1 hne.2 h
      simp only [Event.response, hr', Bool.false_eq_true, if_false, List.append_nil,
        pending_of_samePipe hp]
      exact List.Sublist.refl _
  | update =>
    simp only [exec] at h
    cases h
    simpa [Event.response] using pending_update_sublist c s
  | step =>
    simp only [exec] at h
    cases h
    simp only [Event.response, List.append_nil]
    exact List.Sublist.refl _
  | powerDown =>
    simp only [Event.response, List.append_nil, pending_of_samePipe (powerDown_samePipe h)]
    exact List.Sublist.refl _
  | powerUp =>
    simp only [Event.response, List.append_nil, pending_of_samePipe (powerUp_samePipe h)]
    exact List.Sublist.refl _

theorem run_pending (c : Config) :
    ∀ (es : List Event) (s s' : Rank), run c s es = Except.ok s' →
      List.Sublist (pending s') (pending s ++ reads es)
  | [], s, s', h => by
    simp only [run] at h
    cases h
    simp [reads]
  | e :: es, s, s', h => by
    simp only [run] at h
    split at h
    · cases h
    · rename_i s1 hs1
      have ih := run_pending c es s1 s' h
      have h1 := exec_pending hs1
      simp only [reads, ← List.append_assoc]
      exact ih.trans (List.Sublist.append_right h1 _)

/-- C17: in every run from the constructed state, whatever the interleaving of
accepted packets, `update()` calls and other driver calls, the responses
handed to the memory controller appear in the order in which their READ and
READ_P packets were accepted. -/
theorem C17_fifo_delivery (c : Config) (numBanks wb wr wc : Nat) (es : List Event) (s : Rank)
    (h : run c (Rank.init numBanks wb wr wc) es = Except.ok s) :
    List.Sublist s.delivered (reads es) := by
  have h1 := run_pending c es _ s h
  have h2 : pending (Rank.init numBanks wb wr wc) = [] := rfl
  rw [h2, List.nil_append] at h1
  refine List.Sublist.trans ?_ h1
  simp only [pending, List.append_assoc]
  exact List.sublist_append_left _ _

theorem C17_fifo_delivery_witness :
    ∃ s, run exampleConfig (Rank.init 2 0 0 0) (spacedReadsRun ++ idleCycles 2)
        = Except.ok s ∧
      reads (spacedReadsRun ++ idleCycles 2)
        = [⟨BusPacketType.DATA, 3, 5, 0⟩, ⟨BusPacketType.DATA, 4, 5, 0⟩] ∧
      s.delivered = [⟨BusPacketType.DATA, 3, 5, 0⟩, ⟨BusPacketType.DATA, 4, 5, 0⟩] ∧
      List.Sublist s.delivered (reads (spacedReadsRun ++ idleCycles 2)) :=
  ⟨_, rfl, rfl, rfl,
    C17_fifo_delivery exampleConfig 2 0 0 0 (spacedReadsRun ++ idleCycles 2) _ rfl⟩

/-- How an accepted packet moves `nextRead`: it is never lowered, except in the
bank an ACTIVATE opens, where it becomes the clock plus `tRCD-AL`. -/
theorem receiveFromBus_nextRead {c : Config} {s s' : Rank} {packet : BusPacket}
    (h : receiveFromBus c s packet = Except.ok s') (i : Nat) (b' : BankState)
    (hb' : s'.bankStates[i]? = some b') :
    ∃ b, s.bankStates[i]? = some b ∧
      (b.nextRead ≤ b'.nextRead ∨
        b'.nextRead = s.currentClockCycle + sub32 c.tRCD c.AL) := by
  rcases packet with ⟨ty, col, row, bank⟩
  cases ty <;> simp only [receiveFromBus] at h
  case READ =>
    split at h
    · cases h
    · rename_i tb htb
      split at h
      · cases h
      · cases h
        simp only [readLoop, List.getElem?_map, getElem?_set_bank _ _ _ _ _ htb] at hb'
        by_cases hi : i = bank
        · subst hi
          simp only [if_true, Option.map_some', Option.some.injEq] at hb'
          subst hb'
          exact ⟨tb, htb, Or.inl (le_max_left _ _)⟩
        · simp only [hi, if_false] at hb'
          cases hx : s.bankStates[i]? with
          | none => rw [hx] at hb'; cases hb'
          | some x =>
            rw [hx] at hb'
            simp only [Option.map_some', Option.some.injEq] at hb'
            subst hb'
            exact ⟨x, rfl, Or.inl (le_max_left _ _)⟩
  case READ_P =>
    split at h
    · cases h
    · rename_i tb htb
      split at h
      · cases h
      · cases h
        simp only [readLoop, List.getElem?_map, getElem?_set_bank _ _ _ _ _ htb] at hb'
        by_cases hi : i = bank
        · subst hi
          simp only [if_true, Option.map_some', Option.some.injEq] at hb'
          subst hb'
          exact ⟨tb, htb, Or.inl (le_max_left _ _)⟩
        · simp only [hi, if_false] at hb'
          cases hx : s.bankStates[i]? with
          | none => rw [hx] at hb'; cases hb'
          | some x =>
            rw [hx] at hb'
            simp only [Option.map_some', Option.some.injEq] at hb'
            subst hb'
            exact ⟨x, rfl, Or.inl (le_max_left _ _)⟩
  case WRITE =>
    split at h
    · cases h
    · rename_i tb htb
      split at h
      · cases h
      · cases h
        simp only [writeLoop, List.getElem?_map, getElem?_set_bank _ _ _ _ _ htb] at hb'
        by_cases hi : i = bank
        · subst hi
          simp only [if_true, Option.map_some', Option.some.injEq] at hb'
          subst hb'
          exact ⟨tb, htb, Or.inl (le_max_left _ _)⟩
        · simp only [hi, if_false] at hb'
          cases hx : s.bankStates[i]? with
          | none => rw [hx] at hb'; cases hb'
          | some x =>
            rw [hx] at hb'
            simp only [Option.map_some', Option.some.injEq] at hb'
            subst hb'
            exact ⟨x, rfl, Or.inl (le_max_left _ _)⟩
  case WRITE_P =>
    split at h
    · cases h
    · rename_i tb htb
      split at h
      · cases h
      · cases h
        simp only [writeLoop, List.getElem?_map, getElem?_set_bank _ _ _ _ _ htb] at hb'
        by_cases hi : i = bank
        · subst hi
          simp only [if_true, Option.map_some', Option.some.injEq] at hb'
          subst hb'
          exact ⟨tb, htb, Or.inl (le_max_left _ _)⟩
        · simp only [hi, if_false] at hb'
          cases hx : s.bankStates[i]? with
          | none => rw [hx] at hb'; cases hb'
          | some x =>
            rw [hx] at hb'
            simp only [Option.map_some', Option.some.injEq] at hb'
            subst hb'
            exact ⟨x, rfl, Or.inl (le_max_left _ _)⟩
  case ACTIVATE =>
    split at h
    · cases h
    · rename_i tb htb
      split at h
      · cases h
      · cases h
        simp only [getElem?_activateLoop, getElem?_set_bank _ _ _ _ _ htb] at hb'
        by_cases hi : i = bank
        · subst hi
          refine ⟨tb, htb, Or.inr ?_⟩
          by_cases hal : c.AL > 0 <;>
          · simp only [hal, if_true, if_false, Option.map_some', Nat.zero_add, ne_eq,
              not_true_eq_false, Option.some.injEq] at hb'
            subst hb'
            rfl
        · simp only [hi, if_false] at hb'
          cases hx : s.bankStates[i]? with
          | none => rw [hx] at hb'; cases hb'
          | some x =>
            rw [hx] at hb'
            simp only [Option.map_some', Nat.zero_add, ne_eq, hi, not_false_eq_true, if_true,
              Option.some.injEq] at hb'
            subst hb'
            exact ⟨x, rfl, Or.inl (le_refl _)⟩
  case PRECHARGE =>
    split at h
    · cases h
    · rename_i tb htb
      split at h
      · cases h
      · cases h
        simp only [getElem?_set_bank _ _ _ _ _ htb] at hb'
        by_cases hi : i = bank
        · subst hi
          simp only [if_true, Option.some.injEq] at hb'
          subst hb'
          exact ⟨tb, htb, Or.inl (le_refl _)⟩
        · simp only [hi, if_false] at hb'
          exact ⟨b', hb', Or.inl (le_refl _)⟩
  case REFRESH =>
    rw [refreshLoop_eq] at h
    split at h
    · cases h
    · rename_i bs hbs
      split at hbs
      · cases hbs
        cases h
        simp only [List.getElem?_map] at hb'
        cases hx : s.bankStates[i]? with
        | none => rw [hx] at hb'; cases hb'
        | some x =>
          rw [hx] at hb'
          simp only [Option.map_some', Option.some.injEq] at hb'
          subst hb'
          exact ⟨x, rfl, Or.inl (le_refl _)⟩
      · cases hbs
  case DATA =>
    split at h
    · cases h
      exact ⟨b', hb', Or.inl (le_refl _)⟩
    · cases h

/-- An accepted READ or READ_P found the addressed bank with its `nextRead`
reached, and leaves every bank with `nextRead` at least the clock plus
max(tCCD, BL/2). -/
theorem receiveFromBus_read_floor {c : Config} {s s' : Rank} {packet : BusPacket}
    (hty : packet.busPacketType = BusPacketType.READ ∨
           packet.busPacketType = BusPacketType.READ_P)
    (h : receiveFromBus c s packet = Except.ok s') :
    (∃ b, s.bankStates[packet.bank]? = some b ∧ b.nextRead ≤ s.currentClockCycle) ∧
    ReadFloor (s.currentClockCycle + max c.tCCD (c.BL / 2)) s' := by
  rcases hty with hty | hty <;>
  · simp only [receiveFromBus, hty] at h
    split at h
    · cases h
    · rename_i b hb
      split at h
      · cases h
      · rename_i hg
        cases h
        refine ⟨⟨b, hb, ?_⟩, ?_⟩
        · by_contra hn
          exact hg (Or.inr (Or.inl (Nat.lt_of_not_le hn)))
        · intro i b' hb'
          simp only [readLoop, List.getElem?_map] at hb'
          cases hx : (s.bankStates.set packet.bank _)[i]? with
          | none => rw [hx] at hb'; cases hb'
          | some x =>
            rw [hx] at hb'
            simp only [Option.map_some', Option.some.injEq] at hb'
            subst hb'
            exact le_max_right _ _

theorem powerDown_nextRead {c : Config} {s s' : Rank} (h : powerDown c s = Except.ok s')
    (i : Nat) (b' : BankState) (hb' : s'.bankStates[i]? = some b') :
    ∃ b, s.bankStates[i]? = some b ∧ b.nextRead = b'.nextRead := by
  rw [(powerDown_ok_bankStates h).2, List.getElem?_map] at hb'
  cases hx : s.bankStates[i]? with
  | none => rw [hx] at hb'; cases hb'
  | some x =>
    rw [hx] at hb'
    simp only [Option.map_some', Option.some.injEq] at hb'
    subst hb'
    exact ⟨x, rfl, rfl⟩

theorem powerUp_nextRead {c : Config} {s s' : Rank} (h : powerUp c s = Except.ok s')
    (i : Nat) (b' : BankState) (hb' : s'.bankStates[i]? = some b') :
    ∃ b, s.bankStates[i]? = some b ∧ b.nextRead = b'.nextRead := by
  simp only [powerUp, powerUpLoop_eq] at h
  split at h
  · cases h
  · split at h
    · cases h
    · rename_i bs hbs
      split at hbs
      · cases hbs
        cases h
        simp only [List.getElem?_map] at hb'
        cases hx : s.bankStates[i]? with
        | none => rw [hx] at hb'; cases hb'
        | some x =>
          rw [hx] at hb'
          simp only [Option.map_some', Option.some.injEq] at hb'
          subst hb'
          exact ⟨x, rfl, rfl⟩
      · cases hbs

/-- No driver call moves the clock backwards. -/
theorem exec_clock {c : Config} {s s' : Rank} {e : Event} (h : exec c s e = Except.ok s') :
    s.currentClockCycle ≤ s'.currentClockCycle := by
  cases e with
  | receive packet => exact le_of_eq (receiveFromBus_frame h).1.symm
  | update =>
    simp only [exec] at h
    cases h
    exact le_of_eq (update_frame c s).2.2.2.2.2.symm
  | step =>
    simp only [exec] at h
    cases h
    exact Nat.le_succ _
  | powerDown =>
    simp only [exec, powerDown] at h
    split at h
    · cases h
    · cases h; exact le_refl _
  | powerUp =>
    simp only [exec, powerUp] at h
    split at h
    · cases h
    · split at h
      · cases h
      · cases h; exact le_refl _

/-- A lower bound `L` on every bank's `nextRead` survives a driver call when
`L` is at most the clock plus a gap `G` that `tRCD-AL` covers. -/
theorem exec_readFloor {c : Config} {s s' : Rank} {e : Event} {L G : Nat}
    (hG : G ≤ sub32 c.tRCD c.AL) (hL : L ≤ s.currentClockCycle + G)
    (hfloor : ReadFloor L s) (h : exec c s e = Except.ok s') : ReadFloor L s' := by
  intro i b' hb'
  cases e with
  | receive packet =>
    obtain ⟨b, hb, hor⟩ := receiveFromBus_nextRead h i b' hb'
    rcases hor with hle | heq
    · exact le_trans (hfloor i b hb) hle
    · omega
  | update =>
    simp only [exec] at h
    cases h
    rw [update_bankStates] at hb'
    exact hfloor i b' hb'
  | step =>
    simp only [exec] at h
    cases h
    exact hfloor i b' hb'
  | powerDown =>
    obtain ⟨b, hb, heq⟩ := powerDown_nextRead h i b' hb'
    exact heq ▸ hfloor i b hb
  | powerUp =>
    obtain ⟨b, hb, heq⟩ := powerUp_nextRead h i b' hb'
    exact heq ▸ hfloor i b hb

theorem readClocks_spaced (c : Config) (hG : max c.tCCD (c.BL / 2) ≤ sub32 c.tRCD c.AL) :
    ∀ (es : List Event) (s s' : Rank) (L : Nat),
      ReadFloor L s → L ≤ s.currentClockCycle + max c.tCCD (c.BL / 2) →
      run c s es = Except.ok s' →
      ReadSpacing c s es ∧ ∀ t ∈ readClocks c s es, L ≤ t
  | [], s, s', L, _, _, _ => by
    simp [ReadSpacing, readClocks]
  | e :: es, s, s', L, hfloor, hL, h => by
    simp only [run] at h
    split at h
    · cases h
    · rename_i s1 hs1
      have hclk := exec_clock hs1
      have hfloor1 := exec_readFloor hG hL hfloor hs1
      simp only [ReadSpacing, readClocks, hs1]
      by_cases hr : e.isRead = true
      · cases e with
        | receive packet =>
          have hty : packet.busPacketType = BusPacketType.READ ∨
              packet.busPacketType = BusPacketType.READ_P := by
            simpa [Event.isRead] using hr
          obtain ⟨⟨b, hb, hle⟩, hfl⟩ := receiveFromBus_read_floor hty hs1
          have ih := readClocks_spaced c hG es s1 s'
            (s.currentClockCycle + max c.tCCD (c.BL / 2)) hfl (by omega) h
          simp only [hr, if_true, List.singleton_append, List.pairwise_cons, List.mem_cons,
            forall_eq_or_imp]
          have hLt : L ≤ s.currentClockCycle := le_trans (hfloor _ b hb) hle
          refine ⟨⟨ih.2, ih.1⟩, hLt, ?_⟩
          intro t ht
          have := ih.2 t ht
          omega
        | update => cases hr
        | step => cases hr
        | powerDown => cases hr
        | powerUp => cases hr
      · have ih := readClocks_spaced c hG es s1 s' L hfloor1 (by omega) h
        simp only [hr, Bool.false_eq_true, if_false, List.nil_append]
        exact ih

/-- C18, counterexample: under `postedCasConfig` (AL = 9 ≤ tRCD = 10,
max(tCCD, BL/2) = 4) the run `closeReadsRun` from the constructed state is
accepted call by call; its READ packets are received at cycles 4 and 6, the
ACTIVATE at cycle 5 having set bank 1's `nextRead` to 6. -/
theorem C18_counterexample :
    postedCasConfig.AL ≤ postedCasConfig.tRCD ∧
    (∃ s, run postedCasConfig (Rank.init 2 0 0 0) closeReadsRun = Except.ok s) ∧
    readClocks postedCasConfig (Rank.init 2 0 0 0) closeReadsRun = [4, 6] ∧
    ¬ ReadSpacing postedCasConfig (Rank.init 2 0 0 0) closeReadsRun := by
  have hrc : readClocks postedCasConfig (Rank.init 2 0 0 0) closeReadsRun = [4, 6] := rfl
  refine ⟨by decide, ⟨_, rfl⟩, hrc, ?_⟩
  intro h
  unfold ReadSpacing at h
  rw [hrc] at h
  revert h
  decide

/-- C18, amended: when AL ≤ tRCD and max(tCCD, BL/2) ≤ tRCD - AL, in every run
of accepted calls from the constructed state a READ or READ_P received after
another one comes at least max(tCCD, BL/2) cycles later, whatever calls are
accepted in between. -/
theorem C18_read_spacing (c : Config) (numBanks wb wr wc : Nat) (es : List Event) (s : Rank)
    (hAL : c.AL ≤ c.tRCD) (hgap : max c.tCCD (c.BL / 2) ≤ c.tRCD - c.AL)
    (h : run c (Rank.init numBanks wb wr wc) es = Except.ok s) :
    ReadSpacing c (Rank.init numBanks wb wr wc) es := by
  have hG : max c.tCCD (c.BL / 2) ≤ sub32 c.tRCD c.AL := by
    rw [sub32_of_le hAL]; exact hgap
  have hfloor : ReadFloor 0 (Rank.init numBanks wb wr wc) := fun _ _ _ => Nat.zero_le _
  exact (readClocks_spaced c hG es _ s 0 hfloor (Nat.zero_le _) h).1

theorem C18_read_spacing_witness :
    (∃ s, run exampleConfig (Rank.init 2 0 0 0)
        (cycle [⟨BusPacketType.ACTIVATE, 0, 5, 0⟩] ++ idleCycles 9 ++
          cycle [⟨BusPacketType.READ, 3, 5, 0⟩] ++ idleCycles 3 ++
          cycle [⟨BusPacketType.READ, 4, 5, 0⟩]) = Except.ok s) ∧
    readClocks exampleConfig (Rank.init 2 0 0 0)
        (cycle [⟨BusPacketType.ACTIVATE, 0, 5, 0⟩] ++ idleCycles 9 ++
          cycle [⟨BusPacketType.READ, 3, 5, 0⟩] ++ idleCycles 3 ++
          cycle [⟨BusPacketType.READ, 4, 5, 0⟩]) = [10, 14] ∧
    ReadSpacing exampleConfig (Rank.init 2 0 0 0)
        (cycle [⟨BusPacketType.ACTIVATE, 0, 5, 0⟩] ++ idleCycles 9 ++
          cycle [⟨BusPacketType.READ, 3, 5, 0⟩] ++ idleCycles 3 ++
          cycle [⟨BusPacketType.READ, 4, 5, 0⟩]) :=
  ⟨⟨_, rfl⟩, rfl,
    C18_read_spacing exampleConfig 2 0 0 0 _ _ (by decide) (by decide) rfl⟩

theorem getElem?_mem_bank {bs : List BankState} {i : Nat} {b : BankState}
    (h : bs[i]? = some b) : b ∈ bs := by
  have hlt := getElem?_some_lt h
  rw [List.getElem?_eq_getElem hlt] at h
  cases h
  exact List.getElem_mem hlt

/-- With every bank in phase PowerDown, each command packet ends in the fatal
error: the addressed bank is neither RowActive nor Idle, and REFRESH finds a
bank that is not Idle. -/
theorem receiveFromBus_allDown {c : Config} {s : Rank} {packet : BusPacket}
    (hdown : AllDown s) (hty : packet.busPacketType ≠ BusPacketType.DATA)
    (hbank : packet.busPacketType = BusPacketType.REFRESH ∨
      packet.bank < s.bankStates.length) :
    receiveFromBus c s packet = Except.error Failure.fatal := by
  obtain ⟨hne, hall⟩ := hdown
  by_cases href : packet.busPacketType = BusPacketType.REFRESH
  · simp only [receiveFromBus, href, refreshLoop_eq]
    rw [if_neg]
    intro hidle
    cases hbs : s.bankStates with
    | nil => exact hne hbs
    | cons x xs =>
      have hx : x ∈ s.bankStates := by rw [hbs]; exact List.mem_cons_self _ _
      have h1 := hall x hx
      have h2 := hidle x hx
      rw [h1] at h2
      cases h2
  · have hlt : packet.bank < s.bankStates.length := by
      rcases hbank with h | h
      · exact absurd h href
      · exact h
    have hb : s.bankStates[packet.bank]? = some (s.bankStates[packet.bank]) :=
      List.getElem?_eq_getElem hlt
    have hpd := hall _ (getElem?_mem_bank hb)
    rcases packet with ⟨ty, col, row, bank⟩
    cases ty <;>
      first
      | exact absurd rfl href
      | exact absurd rfl hty
      | (simp only [receiveFromBus, hb]
         rw [if_pos]
         left
         rw [hpd]
         decide)

/-- A successful call other than `powerUp()` on a rank whose banks are all in
phase PowerDown leaves the bank vector as it is. -/
theorem exec_allDown {c : Config} {s s' : Rank} {e : Event}
    (hdown : AllDown s) (he : e ≠ Event.powerUp) (h : exec c s e = Except.ok s') :
    s'.bankStates = s.bankStates := by
  cases e with
  | receive packet =>
    simp only [exec] at h
    by_cases hty : packet.busPacketType = BusPacketType.DATA
    · simp only [receiveFromBus, hty] at h
      split at h
      · cases h; rfl
      · cases h
    · by_cases hbank : packet.busPacketType = BusPacketType.REFRESH ∨
          packet.bank < s.bankStates.length
      · rw [receiveFromBus_allDown hdown hty hbank] at h
        cases h
      · have hnr : packet.busPacketType ≠ BusPacketType.REFRESH := fun hh => hbank (Or.inl hh)
        have hge : s.bankStates.length ≤ packet.bank := by
          by_contra hn
          exact hbank (Or.inr (Nat.lt_of_not_le hn))
        have hnone : s.bankStates[packet.bank]? = none := List.getElem?_eq_none hge
        rcases packet with ⟨ty, col, row, bank⟩
        cases ty <;>
          first
          | exact absurd rfl hnr
          | exact absurd rfl hty
          | (simp only [receiveFromBus, hnone] at h
             cases h)
  | update =>
    simp only [exec] at h
    cases h
    exact update_bankStates c s
  | step =>
    simp only [exec] at h
    cases h
    rfl
  | powerDown =>
    exfalso
    obtain ⟨hne, hall⟩ := hdown
    simp only [exec, powerDown, powerDownLoop_eq] at h
    rw [if_neg] at h
    · cases h
    · intro hidle
      cases hbs : s.bankStates with
      | nil => exact hne hbs
      | cons x xs =>
        have hx : x ∈ s.bankStates := by rw [hbs]; exact List.mem_cons_self _ _
        have h1 := hall x hx
        have h2 := hidle x hx
        rw [h1] at h2
        cases h2
  | powerUp => exact absurd rfl he

theorem run_allDown (c : Config) :
    ∀ (es : List Event) (s s' : Rank), AllDown s → (∀ e ∈ es, e ≠ Event.powerUp) →
      run c s es = Except.ok s' → s'.bankStates = s.bankStates
  | [], s, s', _, _, h => by
    simp only [run] at h
    cases h
    rfl
  | e :: es, s, s', hdown, hno, h => by
    simp only [run] at h
    split at h
    · cases h
    · rename_i s1 hs1
      have h1 := exec_allDown hdown (hno e (List.mem_cons_self _ _)) hs1
      have hdown1 : AllDown s1 := by
        unfold AllDown
        rw [h1]
        exact hdown
      have ih := run_allDown c es s1 s' hdown1
        (fun e' he' => hno e' (List.mem_cons_of_mem _ he')) h
      exact ih.trans h1

theorem powerDown_allDown {c : Config} {s s' : Rank} (hne : s.bankStates ≠ [])
    (h : powerDown c s = Except.ok s') : AllDown s' := by
  obtain ⟨_, hbs⟩ := powerDown_ok_bankStates h
  constructor
  · rw [hbs]
    intro hnil
    exact hne (List.map_eq_nil_iff.mp hnil)
  · intro b hb
    rw [hbs, List.mem_map] at hb
    obtain ⟨x, _, rfl⟩ := hb
    rfl

/-- C19: after a successful `powerDown()` of a rank with at least one bank, and
after any accepted calls that follow it without a `powerUp()`, every READ,
READ_P, WRITE, WRITE_P, ACTIVATE and PRECHARGE packet addressed to an existing
bank and every REFRESH packet ends in the fatal error; the rejection comes from
the bank phases, `isPowerDown` is not read. -/
theorem C19_powered_down_rejects (c : Config) (s1 s2 s3 : Rank) (es : List Event)
    (packet : BusPacket)
    (hne : s1.bankStates ≠ [])
    (hdown : powerDown c s1 = Except.ok s2)
    (hno : ∀ e ∈ es, e ≠ Event.powerUp)
    (hrun : run c s2 es = Except.ok s3)
    (hty : packet.busPacketType ≠ BusPacketType.DATA)
    (hbank : packet.busPacketType = BusPacketType.REFRESH ∨
      packet.bank < s1.bankStates.length) :
    receiveFromBus c s3 packet = Except.error Failure.fatal ∧
    receiveFromBus c { s3 with isPowerDown := false } packet = Except.error Failure.fatal := by
  have hd2 := powerDown_allDown hne hdown
  have hbs := run_allDown c es s2 s3 hd2 hno hrun
  have hlen : s3.bankStates.length = s1.bankStates.length := by
    rw [hbs, (powerDown_ok_bankStates hdown).2, List.length_map]
  have hd3 : AllDown s3 := by
    unfold AllDown
    rw [hbs]
    exact hd2
  constructor
  · exact receiveFromBus_allDown hd3 hty (by rw [hlen]; exact hbank)
  · exact receiveFromBus_allDown (s := { s3 with isPowerDown := false }) hd3 hty
      (by rw [show ({ s3 with isPowerDown := false } : Rank).bankStates = s3.bankStates from rfl,
            hlen]; exact hbank)

theorem C19_powered_down_rejects_witness :
    powerDown exampleConfig stateAfterReadP = Except.ok statePoweredDown ∧
    ∃ s3, run exampleConfig statePoweredDown
        (idleCycles 2 ++ [Event.receive ⟨BusPacketType.DATA, 3, 5, 0⟩]) = Except.ok s3 ∧
      receiveFromBus exampleConfig s3 ⟨BusPacketType.ACTIVATE, 0, 7, 1⟩
        = Except.error Failure.fatal :=
  ⟨rfl, _, rfl,
    (C19_powered_down_rejects exampleConfig stateAfterReadP statePoweredDown _
      (idleCycles 2 ++ [Event.receive ⟨BusPacketType.DATA, 3, 5, 0⟩])
      ⟨BusPacketType.ACTIVATE, 0, 7, 1⟩ (by decide) rfl (by decide) rfl (by decide)
      (Or.inr (by decide))).1⟩

theorem ReadFloor.mono {L L' : Nat} {s : Rank} (h : ReadFloor L' s) (hle : L ≤ L') :
    ReadFloor L s :=
  fun i b hb => le_trans hle (h i b hb)

/-- The queue invariant survives an accepted packet received at cycle `τ`. -/
theorem receiveFromBus_queueInv {c : Config} {G : Nat} {s s' : Rank} {packet : BusPacket}
    (hRL : 1 ≤ c.RL) (hGD : G ≤ max c.tCCD (c.BL / 2)) (hGs : G ≤ sub32 c.tRCD c.AL)
    (hinv : QueueInv c G s.currentClockCycle s)
    (h : receiveFromBus c s packet = Except.ok s') :
    QueueInv c G s'.currentClockCycle s' := by
  obtain ⟨q1, q2, q3, q4⟩ := hinv
  have hclk : s'.currentClockCycle = s.currentClockCycle := (receiveFromBus_frame h).1
  rw [hclk]
  have hfloor : ∀ x ∈ s.readReturnCountdown,
      ReadFloor (s.currentClockCycle + x + G - c.RL) s' := by
    intro x hx
    have hxle := (q2 x hx).2
    exact exec_readFloor (e := Event.receive packet) hGs (by omega) (q4 x hx) h
  by_cases hty : packet.busPacketType = BusPacketType.READ ∨
      packet.busPacketType = BusPacketType.READ_P
  · obtain ⟨_, _, p3, p4, _⟩ := receiveFromBus_read_pipe hty h
    obtain ⟨⟨b, hb, hble⟩, hfl⟩ := receiveFromBus_read_floor hty h
    have hspace : ∀ x ∈ s.readReturnCountdown, x + G ≤ c.RL := by
      intro x hx
      have := q4 x hx _ b hb
      omega
    refine ⟨?_, ?_, ?_, ?_⟩
    · rw [p3, p4, List.length_append, List.length_append, q1]
      rfl
    · intro x hx
      rw [p4, List.mem_append, List.mem_singleton] at hx
      rcases hx with hx | hx
      · exact q2 x hx
      · subst hx; exact ⟨hRL, le_refl _⟩
    · rw [p4, List.pairwise_append]
      refine ⟨q3, List.pairwise_singleton _ _, ?_⟩
      intro x hx y hy
      rw [List.mem_singleton] at hy
      subst hy
      exact hspace x hx
    · intro x hx
      rw [p4, List.mem_append, List.mem_singleton] at hx
      rcases hx with hx | hx
      · exact hfloor x hx
      · subst hx
        exact hfl.mono (by omega)
  · have hne : packet.busPacketType ≠ BusPacketType.READ ∧
        packet.busPacketType ≠ BusPacketType.READ_P := by
      constructor
      · intro hh; exact hty (Or.inl hh)
      · intro hh; exact hty (Or.inr hh)
    obtain ⟨_, _, p3, p4, _⟩ := receiveFromBus_samePipe hne.1 hne.2 h
    refine ⟨?_, ?_, ?_, ?_⟩
    · rw [p3, p4]; exact q1
    · rw [p4]; exact q2
    · rw [p4]; exact q3
    · rw [p4]; exact hfloor

theorem dec32_of_pos {x : Nat} (h : 1 ≤ x) : dec32 x = x - 1 := by
  unfold dec32
  split <;> omega

theorem updateBus_queue (s : Rank) :
    (updateBus s).readReturnPacket = s.readReturnPacket ∧
    (updateBus s).readReturnCountdown = s.readReturnCountdown := by
  unfold updateBus
  split
  · exact ⟨rfl, rfl⟩
  · simp only
    split <;> exact ⟨rfl, rfl⟩

/-- The queues after `update()` when the head countdown is 1: the head entry
has left both queues, the other countdowns are decremented. -/
theorem update_queue_pop (c : Config) (s : Rank) (xs : List Nat)
    (h : s.readReturnCountdown = 1 :: xs) :
    (update c s).readReturnCountdown = xs.map dec32 ∧
    (update c s).readReturnPacket = s.readReturnPacket.tail := by
  obtain ⟨u1, u2⟩ := updateBus_queue s
  unfold update
  simp only [u2, u1, h, List.map_cons, dec32_succ 0]
  exact ⟨trivial, trivial⟩

/-- The queues after `update()` when the head countdown is not 1 (and not 0):
no entry leaves, every countdown is decremented. -/
theorem update_queue_keep (c : Config) (s : Rank)
    (h : ∀ x ∈ s.readReturnCountdown.head?, 2 ≤ x) :
    (update c s).readReturnCountdown = s.readReturnCountdown.map dec32 ∧
    (update c s).readReturnPacket = s.readReturnPacket := by
  obtain ⟨u1, u2⟩ := updateBus_queue s
  unfold update
  simp only [u2, u1]
  split
  · rename_i cds heq
    exfalso
    cases hl : s.readReturnCountdown with
    | nil => rw [hl] at heq; cases heq
    | cons x xs =>
      rw [hl] at heq h
      have hx : 2 ≤ x := h x rfl
      simp only [List.map_cons, List.cons.injEq] at heq
      have := heq.1
      rw [dec32_of_pos (by omega)] at this
      omega
  · exact ⟨rfl, rfl⟩

theorem ReadFloor_update {c : Config} {L : Nat} {s : Rank} (h : ReadFloor L s) :
    ReadFloor L (update c s) := by
  intro i b hb
  rw [update_bankStates] at hb
  exact h i b hb

/-- The queue invariant at cycle `τ` gives the queue invariant at `τ + 1` after
`update()`, for reads at least one cycle apart. -/
theorem update_queueInv {c : Config} {G τ : Nat} {s : Rank} (hG : 1 ≤ G)
    (hinv : QueueInv c G τ s) : QueueInv c G (τ + 1) (update c s) := by
  obtain ⟨q1, q2, q3, q4⟩ := hinv
  have hstep : ∀ (l : List Nat), (∀ y ∈ l, y ∈ s.readReturnCountdown ∧ 2 ≤ y) →
      l.Pairwise (fun a b => a + G ≤ b) →
      (∀ z ∈ l.map dec32, 1 ≤ z ∧ z ≤ c.RL) ∧
      (l.map dec32).Pairwise (fun a b => a + G ≤ b) ∧
      (∀ z ∈ l.map dec32, ReadFloor (τ + 1 + z + G - c.RL) (update c s)) := by
    intro l hl hp
    refine ⟨?_, ?_, ?_⟩
    · intro z hz
      rw [List.mem_map] at hz
      obtain ⟨y, hy, rfl⟩ := hz
      obtain ⟨hmem, h2⟩ := hl y hy
      have := (q2 y hmem).2
      rw [dec32_of_pos (by omega)]
      omega
    · rw [List.pairwise_map]
      refine List.Pairwise.imp_of_mem ?_ hp
      intro a b ha hb hab
      rw [dec32_of_pos (by have := (hl a ha).2; omega),
        dec32_of_pos (by have := (hl b hb).2; omega)]
      have := (hl a ha).2
      omega
    · intro z hz
      rw [List.mem_map] at hz
      obtain ⟨y, hy, rfl⟩ := hz
      obtain ⟨hmem, h2⟩ := hl y hy
      rw [dec32_of_pos (by omega)]
      have : τ + 1 + (y - 1) + G - c.RL = τ + y + G - c.RL := by omega
      rw [this]
      exact ReadFloor_update (q4 y hmem)
  cases hl : s.readReturnCountdown with
  | nil =>
    have hk := update_queue_keep c s (by rw [hl]; intro x hx; cases hx)
    rw [hl] at hk q1
    unfold QueueInv
    rw [hk.1, hk.2, q1]
    simp
  | cons x xs =>
    rw [hl] at q1 q3
    have hx1 : 1 ≤ x := (q2 x (by rw [hl]; exact List.mem_cons_self _ _)).1
    have htail : ∀ y ∈ xs, y ∈ s.readReturnCountdown ∧ 2 ≤ y := by
      intro y hy
      refine ⟨by rw [hl]; exact List.mem_cons_of_mem _ hy, ?_⟩
      have := (List.pairwise_cons.mp q3).1 y hy
      omega
    by_cases hx : x = 1
    · subst hx
      obtain ⟨k1, k2⟩ := update_queue_pop c s xs hl
      obtain ⟨r2, r3, r4⟩ := hstep xs htail (List.pairwise_cons.mp q3).2
      unfold QueueInv
      rw [k1, k2]
      refine ⟨?_, r2, r3, r4⟩
      rw [List.length_tail, q1, List.length_map]
      rfl
    · obtain ⟨k1, k2⟩ := update_queue_keep c s (by
        rw [hl]; intro y hy
        simp only [List.head?_cons, Option.mem_def, Option.some.injEq] at hy
        omega)
      have hall : ∀ y ∈ x :: xs, y ∈ s.readReturnCountdown ∧ 2 ≤ y := by
        intro y hy
        rcases List.mem_cons.mp hy with h1 | h1
        · subst h1
          exact ⟨by rw [hl]; exact List.mem_cons_self _ _, by omega⟩
        · exact htail y h1
      obtain ⟨r2, r3, r4⟩ := hstep (x :: xs) hall q3
      unfold QueueInv
      rw [k1, k2, hl]
      refine ⟨?_, r2, r3, r4⟩
      rw [q1, List.length_map]

theorem updateBus_none {s : Rank} (h : s.outgoingDataPacket = none) : updateBus s = s := by
  unfold updateBus
  rw [h]

theorem updateBus_last {s : Rank} {p : BusPacket} (h : s.outgoingDataPacket = some p)
    (hd : s.dataCyclesLeft = 1) :
    updateBus s =
      { s with dataCyclesLeft := 0, delivered := s.delivered ++ [p],
               outgoingDataPacket := none } := by
  unfold updateBus
  rw [h]
  simp [hd, dec32]

theorem updateBus_busy {s : Rank} {p : BusPacket} (h : s.outgoingDataPacket = some p)
    (hd : 2 ≤ s.dataCyclesLeft) :
    updateBus s = { s with dataCyclesLeft := s.dataCyclesLeft - 1 } := by
  have h1 : dec32 s.dataCyclesLeft = s.dataCyclesLeft - 1 := dec32_of_pos (by omega)
  have h2 : s.dataCyclesLeft - 1 ≠ 0 := by omega
  unfold updateBus
  rw [h]
  simp [h1, h2]

/-- The state after `update()` when the head countdown is 1. -/
theorem update_pop (c : Config) (s : Rank) (xs : List Nat)
    (h : s.readReturnCountdown = 1 :: xs) :
    update c s =
      { updateBus s with
        outgoingDataPacket := s.readReturnPacket.head?, dataCyclesLeft := c.BL / 2,
        readReturnPacket := s.readReturnPacket.tail,
        readReturnCountdown := xs.map dec32 } := by
  obtain ⟨u1, u2⟩ := updateBus_queue s
  unfold update
  simp only [u2, u1, h, List.map_cons, dec32_succ 0]

/-- The state after `update()` when the queue is empty or its head countdown is
at least 2. -/
theorem update_keep (c : Config) (s : Rank)
    (h : ∀ x ∈ s.readReturnCountdown.head?, 2 ≤ x) :
    update c s =
      { updateBus s with readReturnCountdown := s.readReturnCountdown.map dec32 } := by
  obtain ⟨u1, u2⟩ := updateBus_queue s
  unfold update
  simp only [u2, u1]
  split
  · rename_i cds heq
    exfalso
    cases hl : s.readReturnCountdown with
    | nil => rw [hl] at heq; cases heq
    | cons x xs =>
      rw [hl] at heq h
      have hx : 2 ≤ x := h x rfl
      simp only [List.map_cons, List.cons.injEq] at heq
      have := heq.1
      rw [dec32_of_pos (by omega)] at this
      omega
  · rfl

/-- Under the queue and bus invariants at cycle `τ`, for reads at least BL/2
cycles apart, `update()` never replaces a bus occupant: the bus invariant
holds at `τ + 1` and no response in flight is lost or duplicated. -/
theorem update_busInv {c : Config} {G τ : Nat} {s : Rank} (hBL : 1 ≤ c.BL / 2)
    (hG : c.BL / 2 ≤ G) (hq : QueueInv c G τ s) (hb : BusInv c τ s) :
    BusInv c (τ + 1) (update c s) ∧ pending (update c s) = pending s := by
  obtain ⟨q1, q2, q3, q4⟩ := hq
  cases hl : s.readReturnCountdown with
  | nil =>
    have hk := update_keep c s (by rw [hl]; intro x hx; cases hx)
    rw [hl] at hk
    cases ho : s.outgoingDataPacket with
    | none =>
      rw [updateBus_none ho] at hk
      rw [hk]
      refine ⟨?_, ?_⟩
      · intro p hp
        have hp' : s.outgoingDataPacket = some p := hp
        rw [ho] at hp'
        cases hp'
      · rfl
    | some p =>
      obtain ⟨b1, b2, b3, b4⟩ := hb p ho
      by_cases hd : s.dataCyclesLeft = 1
      · rw [updateBus_last ho hd] at hk
        rw [hk]
        refine ⟨?_, ?_⟩
        · intro p' hp'
          cases hp'
        · simp [pending, ho]
      · have hd2 : 2 ≤ s.dataCyclesLeft := by omega
        rw [updateBus_busy ho hd2] at hk
        rw [hk]
        refine ⟨?_, ?_⟩
        · intro p' _
          refine ⟨?_, ?_, ?_, ?_⟩
          · show 1 ≤ s.dataCyclesLeft - 1
            omega
          · show s.dataCyclesLeft - 1 ≤ c.BL / 2
            omega
          · intro x hx
            cases hx
          · have h4 : ReadFloor (τ + 1 + (s.dataCyclesLeft - 1) - c.RL) s := by
              have : τ + 1 + (s.dataCyclesLeft - 1) - c.RL = τ + s.dataCyclesLeft - c.RL := by
                omega
              rw [this]
              exact b4
            exact h4
        · rfl
  | cons x xs =>
    rw [hl] at q1 q3
    have hxmem : x ∈ s.readReturnCountdown := by rw [hl]; exact List.mem_cons_self _ _
    have hx1 : 1 ≤ x := (q2 x hxmem).1
    have htail : ∀ y ∈ xs, x + G ≤ y := (List.pairwise_cons.mp q3).1
    by_cases hx : x = 1
    · subst hx
      have hk := update_pop c s xs hl
      cases hpk : s.readReturnPacket with
      | nil => rw [hpk] at q1; cases q1
      | cons r rs =>
        rw [hpk] at hk
        have hnew : ∀ (s1 : Rank), s1.bankStates = s.bankStates →
            BusInv c (τ + 1)
              { s1 with outgoingDataPacket := some r, dataCyclesLeft := c.BL / 2,
                        readReturnPacket := rs, readReturnCountdown := xs.map dec32 } := by
          intro s1 hbs p' _
          refine ⟨hBL, le_refl _, ?_, ?_⟩
          · intro z hz
            simp only [List.mem_map] at hz
            obtain ⟨y, hy, rfl⟩ := hz
            have := htail y hy
            rw [dec32_of_pos (by omega)]
            show c.BL / 2 ≤ y - 1
            omega
          · intro i b hbk
            have hbk' : s.bankStates[i]? = some b := by rw [← hbs]; exact hbk
            have := q4 1 hxmem i b hbk'
            show τ + 1 + c.BL / 2 - c.RL ≤ b.nextRead
            omega
        cases ho : s.outgoingDataPacket with
        | none =>
          rw [updateBus_none ho] at hk
          rw [hk]
          refine ⟨hnew s rfl, ?_⟩
          simp [pending, ho, hpk]
        | some p =>
          obtain ⟨b1, b2, b3, b4⟩ := hb p ho
          have hd : s.dataCyclesLeft = 1 := by
            have := b3 1 hxmem
            omega
          rw [updateBus_last ho hd] at hk
          rw [hk]
          refine ⟨hnew _ rfl, ?_⟩
          simp [pending, ho, hpk]
    · have hx2 : 2 ≤ x := by omega
      have hk := update_keep c s (by
        rw [hl]; intro y hy
        simp only [List.head?_cons, Option.mem_def, Option.some.injEq] at hy
        omega)
      cases ho : s.outgoingDataPacket with
      | none =>
        rw [updateBus_none ho] at hk
        rw [hk]
        refine ⟨?_, ?_⟩
        · intro p hp
          have hp' : s.outgoingDataPacket = some p := hp
          rw [ho] at hp'
          cases hp'
        · rfl
      | some p =>
        obtain ⟨b1, b2, b3, b4⟩ := hb p ho
        by_cases hd : s.dataCyclesLeft = 1
        · rw [updateBus_last ho hd] at hk
          rw [hk]
          refine ⟨?_, ?_⟩
          · intro p' hp'
            cases hp'
          · simp [pending, ho]
        · have hd2 : 2 ≤ s.dataCyclesLeft := by omega
          rw [updateBus_busy ho hd2] at hk
          rw [hk]
          refine ⟨?_, ?_⟩
          · intro p' _
            refine ⟨?_, ?_, ?_, ?_⟩
            · show 1 ≤ s.dataCyclesLeft - 1
              omega
            · show s.dataCyclesLeft - 1 ≤ c.BL / 2
              omega
            · intro z hz
              have hz' : z ∈ s.readReturnCountdown.map dec32 := hz
              simp only [List.mem_map] at hz'
              obtain ⟨y, hy, rfl⟩ := hz'
              have h1 := b3 y hy
              rw [dec32_of_pos (by omega)]
              show s.dataCyclesLeft - 1 ≤ y - 1
              omega
            · have h4 : ReadFloor (τ + 1 + (s.dataCyclesLeft - 1) - c.RL) s := by
                have : τ + 1 + (s.dataCyclesLeft - 1) - c.RL
                    = τ + s.dataCyclesLeft - c.RL := by omega
                rw [this]
                exact b4
              exact h4
          · rfl

/-- The bus invariant survives an accepted packet received at cycle `τ`, when
`tRCD-AL` is at least BL/2. -/
theorem receiveFromBus_busInv {c : Config} {s s' : Rank} {packet : BusPacket}
    (hGs : c.BL / 2 ≤ sub32 c.tRCD c.AL)
    (hb : BusInv c s.currentClockCycle s)
    (h : receiveFromBus c s packet = Except.ok s') :
    BusInv c s'.currentClockCycle s' := by
  obtain ⟨f1, f2, f3, _, _, _⟩ := receiveFromBus_frame h
  intro p hp
  rw [f2] at hp
  obtain ⟨b1, b2, b3, b4⟩ := hb p hp
  rw [f1, f3]
  have hfloor : ReadFloor (s.currentClockCycle + s.dataCyclesLeft - c.RL) s' :=
    exec_readFloor (e := Event.receive packet) hGs (by omega) b4 h
  refine ⟨b1, b2, ?_, hfloor⟩
  by_cases hty : packet.busPacketType = BusPacketType.READ ∨
      packet.busPacketType = BusPacketType.READ_P
  · obtain ⟨_, _, _, p4, _⟩ := receiveFromBus_read_pipe hty h
    obtain ⟨⟨b, hbk, hble⟩, _⟩ := receiveFromBus_read_floor hty h
    intro x hx
    rw [p4, List.mem_append, List.mem_singleton] at hx
    rcases hx with hx | hx
    · exact b3 x hx
    · subst hx
      have := b4 _ b hbk
      omega
  · have hne : packet.busPacketType ≠ BusPacketType.READ ∧
        packet.busPacketType ≠ BusPacketType.READ_P := by
      constructor
      · intro hh; exact hty (Or.inl hh)
      · intro hh; exact hty (Or.inr hh)
    obtain ⟨_, _, _, p4, _⟩ := receiveFromBus_samePipe hne.1 hne.2 h
    rw [p4]
    exact b3

/-- An accepted packet adds its response, if it is a READ or READ_P, behind the
responses in flight and changes nothing else among them. -/
theorem receiveFromBus_pending {c : Config} {s s' : Rank} {packet : BusPacket}
    (h : receiveFromBus c s packet = Except.ok s') :
    pending s' = pending s ++ (Event.receive packet).response := by
  by_cases hr : (Event.receive packet).isRead = true
  · have hty : packet.busPacketType = BusPacketType.READ ∨
        packet.busPacketType = BusPacketType.READ_P := by
      simpa [Event.isRead] using hr
    obtain ⟨p1, _, p3, _, p5⟩ := receiveFromBus_read_pipe hty h
    simp only [Event.response, hr, if_true, pending, p1, p3, p5, List.append_assoc]
  · have hr' : (Event.receive packet).isRead = false := by
      cases hh : (Event.receive packet).isRead
      · rfl
      · exact absurd hh hr
    have hne : packet.busPacketType ≠ BusPacketType.READ ∧
        packet.busPacketType ≠ BusPacketType.READ_P := by
      simpa [Event.isRead] using hr'
    have hp := receiveFromBus_samePipe hne.1 hne.2 h
    simp only [Event.response, hr', Bool.false_eq_true, if_false, List.append_nil,
      pending_of_samePipe hp]

/-- Along a run that follows the driver's cycle, with reads kept `G ≥ 1` cycles
apart by the configuration, the queue invariant holds at every point; when
moreover `G` is at least BL/2 ≥ 1, every accepted read's response is in flight
or delivered, once and in order. -/
theorem run_pipeInv (c : Config) (G : Nat) (hRL : 1 ≤ c.RL) (hG1 : 1 ≤ G)
    (hGD : G ≤ max c.tCCD (c.BL / 2)) (hGs : G ≤ sub32 c.tRCD c.AL) :
    ∀ (es : List Event) (mid : Bool) (s s' : Rank), CycleShaped mid es = true →
      QueueInv c G (s.currentClockCycle + mid.toNat) s →
      ((1 ≤ c.BL / 2 ∧ c.BL / 2 ≤ G) → BusInv c (s.currentClockCycle + mid.toNat) s) →
      run c s es = Except.ok s' →
      (∃ τ, QueueInv c G τ s') ∧
      ((1 ≤ c.BL / 2 ∧ c.BL / 2 ≤ G) → pending s' = pending s ++ reads es)
  | [], mid, s, s', _, hq, _, h => by
    simp only [run] at h
    cases h
    exact ⟨⟨_, hq⟩, fun _ => by simp [reads]⟩
  | e :: es, mid, s, s', hshape, hq, hb, h => by
    simp only [run] at h
    split at h
    · cases h
    · rename_i s1 hs1
      cases e with
      | receive packet =>
        cases mid with
        | true => simp [CycleShaped] at hshape
        | false =>
          simp only [CycleShaped] at hshape
          simp only [exec] at hs1
          simp only [Bool.toNat_false, Nat.add_zero] at hq hb
          have hq1 := receiveFromBus_queueInv hRL hGD hGs hq hs1
          have hb1 : (1 ≤ c.BL / 2 ∧ c.BL / 2 ≤ G) → BusInv c s1.currentClockCycle s1 :=
            fun hP => receiveFromBus_busInv (le_trans hP.2 hGs) (hb hP) hs1
          obtain ⟨r1, r2⟩ := run_pipeInv c G hRL hG1 hGD hGs es false s1 s' hshape
            (by simpa using hq1) (by simpa using hb1) h
          refine ⟨r1, fun hP => ?_⟩
          rw [r2 hP, receiveFromBus_pending hs1, reads, List.append_assoc]
      | update =>
        cases mid with
        | true => simp [CycleShaped] at hshape
        | false =>
          simp only [CycleShaped] at hshape
          simp only [exec] at hs1
          cases hs1
          simp only [Bool.toNat_false, Nat.add_zero] at hq hb
          have hclk : (update c s).currentClockCycle = s.currentClockCycle :=
            (update_frame c s).2.2.2.2.2
          have hq1 := update_queueInv hG1 hq
          have hb1 : (1 ≤ c.BL / 2 ∧ c.BL / 2 ≤ G) →
              BusInv c (s.currentClockCycle + 1) (update c s) :=
            fun hP => (update_busInv hP.1 hP.2 hq (hb hP)).1
          obtain ⟨r1, r2⟩ := run_pipeInv c G hRL hG1 hGD hGs es true (update c s) s' hshape
            (by simpa [hclk] using hq1) (by simpa [hclk] using hb1) h
          refine ⟨r1, fun hP => ?_⟩
          rw [r2 hP, (update_busInv hP.1 hP.2 hq (hb hP)).2]
          simp [reads, Event.response]
      | step =>
        cases mid with
        | false => simp [CycleShaped] at hshape
        | true =>
          simp only [CycleShaped] at hshape
          simp only [exec] at hs1
          cases hs1
          simp only [Bool.toNat_true] at hq hb
          have hq1 : QueueInv c G ((step s).currentClockCycle + false.toNat) (step s) := hq
          have hb1 : (1 ≤ c.BL / 2 ∧ c.BL / 2 ≤ G) →
              BusInv c ((step s).currentClockCycle + false.toNat) (step s) := hb
          obtain ⟨r1, r2⟩ := run_pipeInv c G hRL hG1 hGD hGs es false (step s) s' hshape
            hq1 hb1 h
          refine ⟨r1, fun hP => ?_⟩
          rw [r2 hP]
          simp [reads, Event.response, pending, step]
      | powerDown => cases mid <;> simp [CycleShaped] at hshape
      | powerUp => cases mid <;> simp [CycleShaped] at hshape

/-- C11, counterexample: under `postedCasConfig` (RL = 19, BL/2 = 4) the run
`droppedResponseRun` follows the driver's cycle and every call is accepted;
the responses of the READs of cycles 4 and 6 are both due, but after the last
`update()` only the second one is held by the rank and none was delivered. -/
theorem C11_counterexample :
    1 ≤ postedCasConfig.RL ∧ 1 ≤ postedCasConfig.BL / 2 ∧
    CycleShaped false droppedResponseRun = true ∧
    (∃ s, run postedCasConfig (Rank.init 2 0 0 0) droppedResponseRun = Except.ok s ∧
      reads droppedResponseRun = [⟨BusPacketType.DATA, 1, 5, 0⟩, ⟨BusPacketType.DATA, 2, 7, 1⟩] ∧
      pending s = [⟨BusPacketType.DATA, 2, 7, 1⟩]) ∧
    ¬ ExactlyOnce postedCasConfig (Rank.init 2 0 0 0) droppedResponseRun := by
  refine ⟨by decide, by decide, rfl, ⟨_, rfl, rfl, rfl⟩, ?_⟩
  intro h
  have h1 := h _ rfl
  revert h1
  decide

/-- C11, amended: with RL ≥ 1, BL/2 ≥ 1 and BL/2 ≤ tRCD - AL, in every run from
the constructed state that follows the driver's cycle (accepted packets, then
`update()`, then the clock increment), at every point of the run the responses
of the accepted READ and READ_P packets are, in order, those already handed to
the memory controller, then the bus occupant (if any), then the contents of
`readReturnPacket`. -/
theorem C11_exactly_once (c : Config) (numBanks wb wr wc : Nat) (es : List Event) (s : Rank)
    (hRL : 1 ≤ c.RL) (hBL : 1 ≤ c.BL / 2) (hgap : c.BL / 2 ≤ c.tRCD - c.AL)
    (hshape : CycleShaped false es = true)
    (h : run c (Rank.init numBanks wb wr wc) es = Except.ok s) :
    reads es = pending s := by
  have hAL : c.AL ≤ c.tRCD := by omega
  have hGs : c.BL / 2 ≤ sub32 c.tRCD c.AL := by
    rw [sub32_of_le hAL]; exact hgap
  have hq : QueueInv c (c.BL / 2) ((Rank.init numBanks wb wr wc).currentClockCycle
      + false.toNat) (Rank.init numBanks wb wr wc) := by
    refine ⟨rfl, ?_, List.Pairwise.nil, ?_⟩
    · intro x hx; cases hx
    · intro x hx; cases hx
  have hb : (1 ≤ c.BL / 2 ∧ c.BL / 2 ≤ c.BL / 2) →
      BusInv c ((Rank.init numBanks wb wr wc).currentClockCycle + false.toNat)
        (Rank.init numBanks wb wr wc) := by
    intro _ p hp
    cases hp
  have hrun := (run_pipeInv c (c.BL / 2) hRL hBL (le_max_right _ _) hGs es false _ s
    hshape hq hb h).2 ⟨hBL, le_refl _⟩
  rw [hrun]
  rfl

theorem C11_exactly_once_witness :
    ∃ s, run exampleConfig (Rank.init 2 0 0 0) spacedReadsRun = Except.ok s ∧
      s.delivered = [⟨BusPacketType.DATA, 3, 5, 0⟩] ∧
      s.outgoingDataPacket = some ⟨BusPacketType.DATA, 4, 5, 0⟩ ∧
      reads spacedReadsRun = pending s :=
  ⟨_, rfl, rfl, rfl,
    C11_exactly_once exampleConfig 2 0 0 0 spacedReadsRun _ (by decide) (by decide)
      (by decide) rfl rfl⟩

theorem update_queue_length (c : Config) (s : Rank)
    (h : s.readReturnPacket.length = s.readReturnCountdown.length) :
    (update c s).readReturnPacket.length = (update c s).readReturnCountdown.length := by
  obtain ⟨u1, u2⟩ := updateBus_queue s
  unfold update
  simp only [u1, u2]
  split
  · rename_i cds heq
    have hlen : (s.readReturnCountdown.map dec32).length = cds.length + 1 := by
      rw [heq]; rfl
    rw [List.length_map] at hlen
    show s.readReturnPacket.tail.length = cds.length
    rw [List.length_tail, h, hlen]
    rfl
  · show s.readReturnPacket.length = (s.readReturnCountdown.map dec32).length
    rw [List.length_map, h]

theorem exec_queue_length {c : Config} {s s' : Rank} {e : Event}
    (hlen : s.readReturnPacket.length = s.readReturnCountdown.length)
    (h : exec c s e = Except.ok s') :
    s'.readReturnPacket.length = s'.readReturnCountdown.length := by
  cases e with
  | receive packet =>
    simp only [exec] at h
    by_cases hty : packet.busPacketType = BusPacketType.READ ∨
        packet.busPacketType = BusPacketType.READ_P
    · obtain ⟨_, _, p3, p4, _⟩ := receiveFromBus_read_pipe hty h
      rw [p3, p4, List.length_append, List.length_append, hlen]
      rfl
    · have hne : packet.busPacketType ≠ BusPacketType.READ ∧
          packet.busPacketType ≠ BusPacketType.READ_P := by
        constructor
        · intro hh; exact hty (Or.inl hh)
        · intro hh; exact hty (Or.inr hh)
      obtain ⟨_, _, p3, p4, _⟩ := receiveFromBus_samePipe hne.1 hne.2 h
      rw [p3, p4]; exact hlen
  | update =>
    simp only [exec] at h
    cases h
    exact update_queue_length c s hlen
  | step =>
    simp only [exec] at h
    cases h
    exact hlen
  | powerDown =>
    obtain ⟨_, _, p3, p4, _⟩ := powerDown_samePipe h
    rw [p3, p4]; exact hlen
  | powerUp =>
    obtain ⟨_, _, p3, p4, _⟩ := powerUp_samePipe h
    rw [p3, p4]; exact hlen

theorem run_queue_length (c : Config) :
    ∀ (es : List Event) (s s' : Rank),
      s.readReturnPacket.length = s.readReturnCountdown.length →
      run c s es = Except.ok s' →
      s'.readReturnPacket.length = s'.readReturnCountdown.length
  | [], s, s', hlen, h => by
    simp only [run] at h
    cases h
    exact hlen
  | e :: es, s, s', hlen, h => by
    simp only [run] at h
    split at h
    · cases h
    · rename_i s1 hs1
      exact run_queue_length c es s1 s' (exec_queue_length hlen hs1) h

/-- C20, counterexample: under `zeroGapConfig` (RL = 20, AL = tRCD) the run
`sameCycleReadsRun` follows the driver's cycle and every call is accepted; two
READs are accepted in cycle 4, so after 20 calls of `update()` the second
entry is left in the queue with countdown 0, and the next `update()` wraps it
to 2^32 - 1. -/
theorem C20_counterexample :
    1 ≤ zeroGapConfig.RL ∧ CycleShaped false sameCycleReadsRun = true ∧
    ∃ s, run zeroGapConfig (Rank.init 2 0 0 0) sameCycleReadsRun = Except.ok s ∧
      s.readReturnCountdown = [0] ∧
      ¬ QueueWellFormed zeroGapConfig s ∧
      (update zeroGapConfig s).readReturnCountdown = [4294967295] := by
  refine ⟨by decide, rfl, _, rfl, rfl, ?_, rfl⟩
  intro h
  have h1 := (h.2.1 0 (List.mem_singleton.mpr rfl)).1
  revert h1
  decide

/-- C20, amended: in every state reached from the constructed state by accepted
calls, `readReturnPacket` and `readReturnCountdown` have the same length.  When
moreover RL ≥ 1, max(tCCD, BL/2) ≥ 1 and AL < tRCD, and the calls follow the
driver's cycle (accepted packets, then `update()`, then the clock increment),
every stored countdown is between 1 and RL and the countdowns increase
strictly from head to tail; so no decrement in `update()` wraps and no entry
behind the head reaches zero before the head. -/
theorem C20_queue_well_formed (c : Config) (numBanks wb wr wc : Nat) (es : List Event)
    (s : Rank) (h : run c (Rank.init numBanks wb wr wc) es = Except.ok s) :
    s.readReturnPacket.length = s.readReturnCountdown.length ∧
    (1 ≤ c.RL → 1 ≤ max c.tCCD (c.BL / 2) → c.AL < c.tRCD →
      CycleShaped false es = true →
      QueueWellFormed c s ∧
      s.readReturnCountdown.Pairwise (fun a b => a < b) ∧
      (∀ x ∈ s.readReturnCountdown, dec32 x = x - 1) ∧
      (∀ x ∈ s.readReturnCountdown.tail, 1 ≤ dec32 x)) := by
  have hlen := run_queue_length c es _ s rfl h
  refine ⟨hlen, ?_⟩
  intro hRL hD hAL hshape
  have hGs : 1 ≤ sub32 c.tRCD c.AL := by
    rw [sub32_of_le (Nat.le_of_lt hAL)]; omega
  have hq : QueueInv c 1 ((Rank.init numBanks wb wr wc).currentClockCycle
      + false.toNat) (Rank.init numBanks wb wr wc) := by
    refine ⟨rfl, ?_, List.Pairwise.nil, ?_⟩
    · intro x hx; cases hx
    · intro x hx; cases hx
  have hb : (1 ≤ c.BL / 2 ∧ c.BL / 2 ≤ 1) →
      BusInv c ((Rank.init numBanks wb wr wc).currentClockCycle + false.toNat)
        (Rank.init numBanks wb wr wc) := by
    intro _ p hp
    cases hp
  obtain ⟨⟨τ, q1, q2, q3, _⟩, _⟩ :=
    run_pipeInv c 1 hRL (le_refl _) hD hGs es false _ s hshape hq hb h
  have hlt : s.readReturnCountdown.Pairwise (fun a b => a < b) :=
    q3.imp (fun hab => by omega)
  refine ⟨⟨q1, q2, q3.imp (fun hab => by omega)⟩, hlt, ?_, ?_⟩
  · intro x hx
    exact dec32_of_pos (q2 x hx).1
  · intro x hx
    cases hl : s.readReturnCountdown with
    | nil => rw [hl] at hx; cases hx
    | cons y ys =>
      rw [hl] at hx hlt
      have hy : y ∈ s.readReturnCountdown := by rw [hl]; exact List.mem_cons_self _ _
      have hxm : x ∈ ys := hx
      have h1 := (List.pairwise_cons.mp hlt).1 x hxm
      have h2 := (q2 y hy).1
      rw [dec32_of_pos (by omega)]
      omega

theorem C20_queue_well_formed_witness :
    ∃ s, run exampleConfig (Rank.init 2 0 0 0) queuedReadsRun = Except.ok s ∧
      s.readReturnCountdown = [5, 9] ∧
      QueueWellFormed exampleConfig s ∧
      s.readReturnCountdown.Pairwise (fun a b => a < b) :=
  ⟨_, rfl, rfl,
    ((C20_queue_well_formed exampleConfig 2 0 0 0 queuedReadsRun _ rfl).2
      (by decide) (by decide) (by decide) rfl).1,
    ((C20_queue_well_formed exampleConfig 2 0 0 0 queuedReadsRun _ rfl).2
      (by decide) (by decide) (by decide) rfl).2.1⟩

end DRAMSim
